import Mathlib

/-!
Verification development for the appointment-assistance agent core
(`src/agent/state.py`, `src/agent/nodes.py`, `src/agent/middleware.py`,
`src/agent/graph.py`, `src/agent/logging_utils.py`, `web_app.py`, `main.py`).

The Python code is shallowly embedded:
* the mutable `AppointmentState` TypedDict becomes an immutable structure that
  every step maps to an updated copy (the Python code mutates in place and
  returns the same dict, which is the same net state transformation);
* the `meta` dict is modelled by a structure holding exactly the keys the
  program uses (`node_calls`, `debug`, `appointment_id`, `insurance_id`,
  the `intent_payload` action, `suggested_slot`, `model_provider`);
* regular-expression searches are compiled to explicit backtracking matchers
  over `List Char` (leftmost position wins; at one position, alternatives and
  greedy quantifiers are enumerated in Python's backtracking priority order);
  ASCII semantics are used for `\w`, `\d`, `\s` and `.lower()`, matching the
  ASCII inputs this program handles;
* `time.sleep` is modelled by recording the requested delay, `input()` by an
  explicit `ReviewDecision` parameter, and a raised exception by a
  `StepResult.err` carrying the exception type name.
-/

/-- ASCII lower-casing of one character, as Python `str.lower` acts on ASCII. -/
def lowerChar (c : Char) : Char :=
  if 'A' ≤ c ∧ c ≤ 'Z' then Char.ofNat (c.toNat + 32) else c

/-- ASCII lower-casing of a string (Python `text.lower()`). -/
def lowerStr (s : String) : String :=
  String.mk (s.data.map lowerChar)

/-- Python regex `\w` on ASCII: letters, digits and underscore. -/
def isWordChar (c : Char) : Bool :=
  c.isAlphanum || c = '_'

/-- Word-character test lifted to an optional neighbouring character
(`none` stands for the edge of the string, which is not a word character). -/
def isWordOpt : Option Char → Bool
  | some c => isWordChar c
  | none => false

/-- Python regex `\b` between two (optional) neighbouring characters:
a boundary holds when exactly one side is a word character. -/
def boundaryOk (a b : Option Char) : Bool :=
  isWordOpt a != isWordOpt b

/-- Python regex `\s` on ASCII. -/
def isSpaceChar (c : Char) : Bool :=
  c = ' ' || c = '\t' || c = '\n' || c = '\r' || c = '\x0b' || c = '\x0c'

/-- The character class `[A-Za-z0-9\-]` of the appointment-id patterns. -/
def isIdChar (c : Char) : Bool :=
  c.isAlphanum || c = '-'

/-- Python `needle in hay` (substring containment) on character lists. -/
def listContainsSub (needle : List Char) : List Char → Bool
  | [] => needle.isEmpty
  | c :: t => needle.isPrefixOf (c :: t) || listContainsSub needle t

/-- Python `needle in hay` on strings. -/
def strContains (hay needle : String) : Bool :=
  listContainsSub needle.data hay.data

/-- Python `any(k in text for k in ks)`. -/
def containsAny (hay : String) (ks : List String) : Bool :=
  ks.any (fun k => strContains hay k)

/-- Python `str.strip()` on a character list (ASCII whitespace). -/
def stripChars (l : List Char) : List Char :=
  ((l.dropWhile isSpaceChar).reverse.dropWhile isSpaceChar).reverse

/-- Python `str.strip()`. -/
def pyStrip (s : String) : String :=
  String.mk (stripChars s.data)

/-- First `some` produced by `f` along a list, in order.  Used to run the
alternatives of a backtracking regex matcher in priority order. -/
def firstSome {α β : Type} (f : α → Option β) : List α → Option β
  | [] => none
  | a :: as =>
    match f a with
    | some b => some b
    | none => firstSome f as

/-- All ways a greedy `p{lo,}` class can split `l` into consumed part and
rest, longest consumption first (the order a backtracking engine tries). -/
def greedySplits (p : Char → Bool) (lo : Nat) (l : List Char) : List (List Char × List Char) :=
  let n := (l.takeWhile p).length
  if n < lo then []
  else (List.range (n + 1 - lo)).map (fun i => (l.take (n - i), l.drop (n - i)))

/-- All ways a greedy `p{lo,hi}` class can split `l`, longest first. -/
def boundedSplits (p : Char → Bool) (lo hi : Nat) (l : List Char) : List (List Char × List Char) :=
  let n := min (l.takeWhile p).length hi
  if n < lo then []
  else (List.range (n + 1 - lo)).map (fun i => (l.take (n - i), l.drop (n - i)))

/-- Splits for `\s*` (greedy, longest first). -/
def spaceSplits (l : List Char) : List (List Char × List Char) :=
  greedySplits isSpaceChar 0 l

/-- Consume a case-insensitive literal (given lower-case) from the front of
`l`, returning the consumed original characters and the rest. -/
def ciConsume (kw : List Char) (l : List Char) : Option (List Char × List Char) :=
  if kw.length ≤ l.length ∧ (l.take kw.length).map lowerChar = kw then
    some (l.take kw.length, l.drop kw.length)
  else none

/-- Splits for an optional piece `(...)?`: present first (greedy), then absent. -/
def optSplits (m : List Char → Option (List Char × List Char)) (l : List Char) :
    List (List Char × List Char) :=
  match m l with
  | some r => [r, ([], l)]
  | none => [([], l)]

/-- Consume one of the characters `:` or `#` (the `[:#]` class). -/
def colonConsume (l : List Char) : Option (List Char × List Char) :=
  match l with
  | c :: r => if c = ':' || c = '#' then some ([c], r) else none
  | [] => none

/-- One attempt of the appointment-id pattern
`\b(?:KW1|KW2)\s*(?:id)?\s*[:#]?\s*([A-Za-z0-9\-]{3,})\b` (IGNORECASE) at the
current position, `prev` being the character just before that position.
`kws` gives the keyword alternatives in the pattern's order (the two regexes
in the source list `appointment`/`appt` in different orders; the alternatives
are mutually exclusive, but the source order is kept).  Returns the whole
matched token, the captured group and the rest of the input. -/
def matchApptIdAt (kws : List (List Char)) (prev : Option Char) (l : List Char) :
    Option (List Char × List Char × List Char) :=
  if boundaryOk prev l.head? then
    firstSome (fun kw =>
      match ciConsume kw l with
      | none => none
      | some (kwTok, r0) =>
        firstSome (fun s1 =>
          firstSome (fun idp =>
            firstSome (fun s2 =>
              firstSome (fun cp =>
                firstSome (fun s3 =>
                  firstSome (fun g =>
                    if boundaryOk g.1.getLast? g.2.head? then
                      some (kwTok ++ s1.1 ++ idp.1 ++ s2.1 ++ cp.1 ++ s3.1 ++ g.1, g.1, g.2)
                    else none)
                    (greedySplits isIdChar 3 s3.2))
                  (spaceSplits cp.2))
                (optSplits colonConsume s2.2))
              (spaceSplits idp.2))
            (optSplits (ciConsume ['i', 'd']) s1.2))
          (spaceSplits r0)) kws
  else none

/-- Keyword order of `nodes._extract_appointment_id`: `(?:appointment|appt)`. -/
def nodeApptKws : List (List Char) :=
  [['a','p','p','o','i','n','t','m','e','n','t'], ['a','p','p','t']]

/-- Keyword order of `logging_utils._APPT_ID_RE`: `(?:appt|appointment)`. -/
def maskApptKws : List (List Char) :=
  [['a','p','p','t'], ['a','p','p','o','i','n','t','m','e','n','t']]

/-- `re.search` scan for the appointment-id pattern: leftmost match wins;
returns the captured group. -/
def searchApptId (kws : List (List Char)) (prev : Option Char) : List Char → Option (List Char)
  | [] =>
    match matchApptIdAt kws prev [] with
    | some (_, g, _) => some g
    | none => none
  | c :: r =>
    match matchApptIdAt kws prev (c :: r) with
    | some (_, g, _) => some g
    | none => searchApptId kws (some c) r

/-- One attempt of `\b(?:appointment|appt)\b` (IGNORECASE) at the current
position. -/
def matchApptKwAt (prev : Option Char) (l : List Char) : Bool :=
  boundaryOk prev l.head? &&
    (firstSome (fun kw =>
      match ciConsume kw l with
      | none => none
      | some (kwTok, r) =>
        if boundaryOk kwTok.getLast? r.head? then some () else none) nodeApptKws).isSome

/-- Scan for `\b(?:appointment|appt)\b`. -/
def searchApptKw (prev : Option Char) : List Char → Bool
  | [] => matchApptKwAt prev []
  | c :: r => matchApptKwAt prev (c :: r) || searchApptKw (some c) r

/-- One attempt of `\b(\d{3,})\b` at the current position, enumerated in the
engine's backtracking order on the greedy `\d{3,}`.  Returns the consumed run
and the rest of the input. -/
def matchDigitRun (prev : Option Char) (l : List Char) : Option (List Char × List Char) :=
  if boundaryOk prev l.head? then
    firstSome (fun g =>
      if boundaryOk g.1.getLast? g.2.head? then some g else none)
      (greedySplits Char.isDigit 3 l)
  else none

/-- Scan for `\b(\d{3,})\b`; returns the captured digit run. -/
def searchDigitRun (prev : Option Char) : List Char → Option (List Char)
  | [] =>
    match matchDigitRun prev [] with
    | some (run, _) => some run
    | none => none
  | c :: r =>
    match matchDigitRun prev (c :: r) with
    | some (run, _) => some run
    | none => searchDigitRun (some c) r

/-- `nodes._extract_appointment_id`: first the full id pattern, else, if the
bare keyword occurs, the first word-bounded run of three or more digits. -/
def extractAppointmentId (text : String) : Option String :=
  match searchApptId nodeApptKws none text.data with
  | some g => some (String.mk g)
  | none =>
    if searchApptKw none text.data then
      match searchDigitRun none text.data with
      | some run => some (String.mk run)
      | none => none
    else none

/-- Python `str.replace(pat, repl)`: replace every non-overlapping leftmost
occurrence.  (For the empty pattern Python would interleave `repl` between
characters; the callers only ever pass patterns of length at least 3, and the
guard keeps the recursion well-founded.) -/
def listReplaceAll (pat repl : List Char) (s : List Char) : List Char :=
  if h : pat ≠ [] ∧ pat.isPrefixOf s then
    repl ++ listReplaceAll pat repl (s.drop pat.length)
  else
    match s with
    | [] => []
    | c :: r => c :: listReplaceAll pat repl r
termination_by s.length
decreasing_by
  · have hle : pat.length ≤ s.length := (List.isPrefixOf_iff_prefix.mp h.2).length_le
    have hpos : 0 < pat.length := List.length_pos.mpr h.1
    simp only [List.length_drop]
    omega
  · simp

/-- `re.sub` scan for the appointment-id pattern of `mask_pii`: on a match,
the whole token is emitted with every occurrence of the captured group
replaced by `***` (Python's `token.replace(m.group(1), "***")`), and scanning
resumes after the match; otherwise one character is emitted.  The fuel is the
input length plus one, which the scan (consuming at least one character per
step) can never exhaust. -/
def maskApptAux (fuel : Nat) (prev : Option Char) (l : List Char) : List Char :=
  match fuel with
  | 0 => l
  | fuel + 1 =>
    match matchApptIdAt maskApptKws prev l with
    | some (tok, grp, rest) =>
      listReplaceAll grp ['*', '*', '*'] tok ++ maskApptAux fuel tok.getLast? rest
    | none =>
      match l with
      | [] => []
      | c :: r => c :: maskApptAux fuel (some c) r

/-- `_APPT_ID_RE.sub(repl_appt, text)` of `mask_pii`. -/
def maskAppt (l : List Char) : List Char :=
  maskApptAux (l.length + 1) none l

/-- A successful `firstSome` comes from some list element. -/
theorem firstSome_eq_some_mem {α β : Type} {f : α → Option β} {xs : List α} {b : β}
    (h : firstSome f xs = some b) : ∃ x ∈ xs, f x = some b := by
  induction xs with
  | nil => simp [firstSome] at h
  | cons a as ih =>
    simp only [firstSome] at h
    cases hfa : f a with
    | some c =>
      rw [hfa] at h
      exact ⟨a, by simp, by simpa [hfa] using h⟩
    | none =>
      rw [hfa] at h
      obtain ⟨x, hx, hfx⟩ := ih h
      exact ⟨x, by simp [hx], hfx⟩

/-- Shape of a successful `\b(\d{3,})\b` attempt: it consumes a run of at
least three characters taken from the front of the input. -/
theorem matchDigitRun_some_shape {prev : Option Char} {l run rest : List Char}
    (h : matchDigitRun prev l = some (run, rest)) :
    ∃ k, 3 ≤ k ∧ k ≤ l.length ∧ run = l.take k ∧ rest = l.drop k := by
  unfold matchDigitRun at h
  split at h
  · obtain ⟨x, hx, hfx⟩ := firstSome_eq_some_mem h
    simp only [greedySplits] at hx
    split at hx
    · simp at hx
    · rename_i hn
      simp only [List.mem_map, List.mem_range] at hx
      obtain ⟨i, hi, hxeq⟩ := hx
      have hxr : x = (run, rest) := by
        by_cases hb : boundaryOk x.1.getLast? x.2.head? = true
        · simpa [hb] using hfx
        · simp [hb] at hfx
      refine ⟨(l.takeWhile Char.isDigit).length - i, by omega, ?_, ?_, ?_⟩
      · have := (List.takeWhile_prefix (l := l) Char.isDigit).length_le
        omega
      · rw [hxr] at hxeq
        exact (congrArg Prod.fst hxeq).symm
      · rw [hxr] at hxeq
        exact (congrArg Prod.snd hxeq).symm
  · exact absurd h (by simp)

/-- `_DIGIT_ID_RE.sub("***", text)` of `mask_pii`: scan the text; at each
position try `\b(\d{3,})\b`; on a match emit `***` and resume after the run,
otherwise emit one character. -/
def maskDigitsAux (prev : Option Char) (l : List Char) : List Char :=
  match h : matchDigitRun prev l with
  | some (run, rest) => '*' :: '*' :: '*' :: maskDigitsAux run.getLast? rest
  | none =>
    match l with
    | [] => []
    | c :: r => c :: maskDigitsAux (some c) r
termination_by l.length
decreasing_by
  · obtain ⟨k, hk3, hkle, -, hrest⟩ := matchDigitRun_some_shape h
    subst hrest
    simp only [List.length_drop]
    omega
  · simp

/-- `logging_utils.mask_pii`: early-return the empty string, else run the
appointment-id masking pass, then the digit-run masking pass. -/
def mask_pii (text : String) : String :=
  if text = "" then text
  else String.mk (maskDigitsAux none (maskAppt text.data))

/-- The three values of `state.TerminalStatus` (used as their `.value` strings). -/
def terminalValues : List String := ["READY", "NEED_INFO", "ESCALATE"]

/-- The keys of the `meta` dict this program reads or writes:
`node_calls` (call-limit counter, `int(meta.get("node_calls", 0))`),
`debug` (free text subject to masking), `appointment_id` / `insurance_id`
(externally supplied identifiers), the `"action"` of `intent_payload`,
`suggested_slot`, and `model_provider`. -/
structure MetaInfo where
  node_calls : Nat := 0
  debug : Option String := none
  appointment_id : Option String := none
  insurance_id : Option String := none
  intent_action : Option String := none
  suggested_slot : Option String := none
  model_provider : Option String := none
deriving Repr, DecidableEq

/-- `state.AppointmentState`. -/
structure AppointmentState where
  run_id : String := ""
  user_input : String := ""
  intent : Option String := none
  risk_flag : Bool := false
  missing_info : List String := []
  draft_response : Option String := none
  final_response : Option String := none
  terminal_status : Option String := none
  route_trace : List String := []
  meta : MetaInfo := {}
deriving Repr, DecidableEq

/-- Python truthiness of an optional string (`None` and `""` are falsy). -/
def optTruthy : Option String → Bool
  | some x => x ≠ ""
  | none => false

/-- Python `a or b` on optional strings (left value unless falsy). -/
def pyOrStr (a b : Option String) : Option String :=
  match a with
  | some x => if x = "" then b else some x
  | none => b

def safetyEscalateMsg : String :=
  "Your message suggests a potential emergency. Please call local emergency services immediately or go to the nearest emergency department. If possible, contact the clinic afterward to update your appointment."

def needInfoRescheduleMsg : String :=
  "I can help reschedule. Please provide your appointment ID (or confirmation number) and your preferred new date/time window."

def needInfoCancelMsg : String :=
  "I can help cancel. Please provide your appointment ID (or confirmation number)."

def needInfoGenericMsg : String :=
  "Please provide more details so I can assist."

def draftRescheduleMsg : String :=
  "I can help with rescheduling. I’ve noted your request and will move the appointment to your requested window once confirmed."

def draftCancelMsg : String :=
  "I can help cancel your appointment. I’ve recorded the cancellation request."

def draftMriMsg : String :=
  "MRI preparation (general):\n- Tell the clinic if you have any implanted devices or metal in your body.\n- Remove metal objects (jewelry, watches, hairpins) before the scan.\n- You may be asked not to eat or drink for a few hours if contrast is used.\n- Let staff know if you are pregnant, have kidney disease, or feel claustrophobic.\nIf you share whether contrast is planned and your appointment time, I can tailor the instructions."

def draftCtMsg : String :=
  "CT scan preparation (general):\n- You may be asked not to eat or drink for a few hours before the scan.\n- If contrast is used, tell the clinic about allergies (especially iodine/contrast) and kidney disease.\n- Wear comfortable clothing and remove metal items as instructed.\nIf you share whether contrast is planned and your appointment time, I can tailor the instructions."

def draftUltrasoundMsg : String :=
  "Ultrasound preparation (general):\n- Preparation depends on the body area being scanned.\n- For some pelvic ultrasounds, you may be asked to drink water and arrive with a full bladder.\n- For some abdominal ultrasounds, you may be asked to avoid eating for several hours.\nTell me which body area is being scanned and your appointment time, and I’ll tailor the instructions."

def draftPrepGenericMsg : String :=
  "Preparation instructions depend on the procedure.\nPlease tell me the procedure type (e.g., MRI, CT, ultrasound) and your appointment time, and I’ll draft the relevant preparation steps for review."

def draftUnknownMsg : String :=
  "I can assist with rescheduling, cancellation, or preparation instructions. Which would you like?"

/-- The fixed safe-fallback response of `CallLimitMiddleware` (the literal
bytes of the source file). -/
def callLimitMsg : String :=
  "Iâ€™m not able to safely complete that request right now. Please contact the clinic directly for assistance."

/-- The fixed safe-fallback response of `RetryMiddleware`. -/
def retryFailMsg : String :=
  "Something went wrong while processing your request. Please contact the clinic directly."

/-- `nodes.node_classify_intent`. -/
def node_classify_intent (s : AppointmentState) : AppointmentState :=
  let text := lowerStr s.user_input
  let intent :=
    if containsAny text ["reschedule", "move my appointment", "change my appointment"] then
      "RESCHEDULE"
    else if containsAny text ["cancel", "call off"] then "CANCEL"
    else if containsAny text ["prep", "prepare", "preparation", "instructions"] then "PREP_INFO"
    else "UNKNOWN"
  { s with intent := some intent, route_trace := s.route_trace ++ ["classify_intent"] }

def emergencyKeywords : List String :=
  ["chest pain", "shortness of breath", "difficulty breathing", "unconscious",
   "severe bleeding", "stroke", "suicidal", "kill myself", "overdose", "emergency"]

/-- The emergency-keyword test of `nodes.node_safety_check`. -/
def emergencyHit (inp : String) : Bool :=
  containsAny (lowerStr inp) emergencyKeywords

/-- `nodes.node_safety_check`. -/
def node_safety_check (s : AppointmentState) : AppointmentState :=
  if emergencyHit s.user_input then
    { s with risk_flag := true,
             terminal_status := some "ESCALATE",
             final_response := some safetyEscalateMsg,
             route_trace := s.route_trace ++ ["safety_escalate"] }
  else
    { s with risk_flag := false, route_trace := s.route_trace ++ ["safety_ok"] }

/-- The `missing` list computed by `nodes.node_check_missing_info`:
for a reschedule or cancel intent, the appointment id from the text
(falling back on `meta["appointment_id"]`) must be truthy. -/
def infoMissing (s : AppointmentState) : List String :=
  if s.intent = some "RESCHEDULE" ∨ s.intent = some "CANCEL" then
    if optTruthy (pyOrStr (extractAppointmentId s.user_input) s.meta.appointment_id) then []
    else ["appointment_id"]
  else []

/-- `nodes.node_check_missing_info`. -/
def node_check_missing_info (s : AppointmentState) : AppointmentState :=
  let missing : List String := infoMissing s
  let s1 := { s with missing_info := missing }
  if missing ≠ [] then
    { s1 with
      terminal_status := some "NEED_INFO",
      final_response := some
        (if s.intent = some "RESCHEDULE" then needInfoRescheduleMsg
         else if s.intent = some "CANCEL" then needInfoCancelMsg
         else needInfoGenericMsg),
      route_trace := s1.route_trace ++ ["need_info"] }
  else
    { s1 with route_trace := s1.route_trace ++ ["info_complete"] }

/-- `nodes.node_handle_intent` (the `intent_payload` dict is recorded by its
`"action"` value). -/
def node_handle_intent (s : AppointmentState) : AppointmentState :=
  let action :=
    if s.intent = some "RESCHEDULE" then "reschedule"
    else if s.intent = some "CANCEL" then "cancel"
    else if s.intent = some "PREP_INFO" then "prep_info"
    else "unknown"
  { s with meta := { s.meta with intent_action := some action },
           route_trace := s.route_trace ++ ["handle_intent"] }

/-- The draft text chosen by `nodes.node_generate_draft`. -/
def draftText (s : AppointmentState) : String :=
  if s.intent = some "RESCHEDULE" then draftRescheduleMsg
  else if s.intent = some "CANCEL" then draftCancelMsg
  else if s.intent = some "PREP_INFO" then
    let t := lowerStr s.user_input
    if strContains t "mri" then draftMriMsg
    else if strContains t "ct" || strContains t "cat scan" then draftCtMsg
    else if strContains t "ultrasound" || strContains t "sonogram" then draftUltrasoundMsg
    else draftPrepGenericMsg
  else draftUnknownMsg

/-- `nodes.node_generate_draft`. -/
def node_generate_draft (s : AppointmentState) : AppointmentState :=
  { s with draft_response := some (draftText s),
           route_trace := s.route_trace ++ ["draft_generated"] }

/-- The human reviewer's choice at the CLI prompt of `node_human_review`
(`input()` is external to the program; `edit` carries the text typed at the
second prompt). -/
inductive ReviewDecision where
  | approve
  | edit (t : String)
deriving Repr, DecidableEq

/-- `nodes.node_human_review` with the interactive `input()` calls replaced
by the `ReviewDecision` parameter (any choice other than `e` approves). -/
def node_human_review (dec : ReviewDecision) (s : AppointmentState) : AppointmentState :=
  let s1 :=
    match dec with
    | .edit t =>
      let edited := pyStrip t
      { s with final_response := if edited ≠ "" then some edited else s.draft_response,
               route_trace := s.route_trace ++ ["hitl_edit"] }
    | .approve =>
      { s with final_response := s.draft_response,
               route_trace := s.route_trace ++ ["hitl_approve"] }
  { s1 with terminal_status := some "READY", route_trace := s1.route_trace ++ ["hitl_completed"] }

/-- `nodes.node_hitl_pause`. -/
def node_hitl_pause (s : AppointmentState) : AppointmentState :=
  { s with route_trace := s.route_trace ++ ["hitl_pause"] }

/-- `nodes.node_finalize`. -/
def node_finalize (s : AppointmentState) : AppointmentState :=
  let s1 := if optTruthy s.terminal_status then s else { s with terminal_status := some "READY" }
  { s1 with route_trace := s1.route_trace ++ ["finalize"] }

/-- Result of invoking a (possibly failing) step: the updated state, or a
raised exception recorded by its type name. -/
inductive StepResult where
  | ok (s : AppointmentState)
  | err (excName : String)
deriving Repr, DecidableEq

/-- The `NodeFn` type of `middleware.py`, with failure made explicit. -/
def FStep : Type := AppointmentState → StepResult

/-- The counter update of `CallLimitMiddleware`: `meta["node_calls"] += 1`. -/
def bumpCalls (s : AppointmentState) : AppointmentState :=
  { s with meta := { s.meta with node_calls := s.meta.node_calls + 1 } }

/-- The short-circuit state written by `CallLimitMiddleware` when the counter
exceeds the ceiling. -/
def callLimitHit (s : AppointmentState) : AppointmentState :=
  { s with terminal_status := some "ESCALATE",
           final_response := some callLimitMsg,
           route_trace := s.route_trace ++ ["call_limit_exceeded"] }

/-- `middleware.CallLimitMiddleware.__call__`: bump the per-run counter; past
the ceiling, return the escalation state without calling the wrapped step. -/
def callLimitMW (maxNodeCalls : Nat) (g : FStep) : FStep := fun s =>
  let s1 := bumpCalls s
  if maxNodeCalls < s1.meta.node_calls then .ok (callLimitHit s1) else g s1

/-- `type(last_err).__name__` (with `last_err = None` giving `NoneType`;
unreachable because the loop always runs at least one attempt). -/
def excNameOf : Option String → String
  | some e => e
  | none => "NoneType"

/-- The escalation state written by `RetryMiddleware` after all attempts
fail. -/
def retryEscalate (lastE : Option String) (s : AppointmentState) : AppointmentState :=
  { s with terminal_status := some "ESCALATE",
           final_response := some retryFailMsg,
           route_trace := s.route_trace ++ ["node_error:" ++ excNameOf lastE] }

/-- The `for i in range(retries+1)` loop of `RetryMiddleware.__call__`.
`att i` is the outcome of the `i`-th invocation of the wrapped step (an
oracle, so that transient failures are expressible), `slept` accumulates the
`time.sleep(backoff_s * 2**i)` delays in order.  Returns the resulting state,
the number of invocations made, and the sleeps performed. -/
def retryLoopAux (base : ℚ) (att : Nat → StepResult) (s : AppointmentState)
    (lastE : Option String) (slept : List ℚ) (i : Nat) :
    Nat → AppointmentState × Nat × List ℚ
  | 0 => (retryEscalate lastE s, i, slept)
  | r + 1 =>
    match att i with
    | .ok out => (out, i + 1, slept)
    | .err e => retryLoopAux base att s (some e) (slept ++ [base * 2 ^ i]) (i + 1) r

/-- `RetryMiddleware` with `retries` retries: up to `retries + 1` attempts. -/
def retryLoop (retries : Nat) (base : ℚ) (att : Nat → StepResult) (s : AppointmentState) :
    AppointmentState × Nat × List ℚ :=
  retryLoopAux base att s none [] 0 (retries + 1)

/-- `middleware.RetryMiddleware.__call__` on a deterministic step: every
attempt re-invokes the step on the same context.  The wrapped function never
fails its caller. -/
def retryMW (retries : Nat) (base : ℚ) (fn : FStep) : FStep := fun s =>
  .ok (retryLoop retries base (fun _ => fn s) s).1

/-- The masking update of `PIIMaskingLogMiddleware`: mask `meta["debug"]`
when present. -/
def maskDebug (s : AppointmentState) : AppointmentState :=
  { s with meta := { s.meta with debug := s.meta.debug.map mask_pii } }

/-- `middleware.PIIMaskingLogMiddleware.__call__`. -/
def piiMW (fn : FStep) : FStep := fun s =>
  match fn s with
  | .ok out => .ok (maskDebug out)
  | .err e => .err e

/-- `middleware.apply_middleware`: compose the stack so that the last entry
is the innermost wrapper. -/
def apply_middleware (fn : FStep) (ms : List (FStep → FStep)) : FStep :=
  ms.reverse.foldl (fun w m => m w) fn

/-- The middleware stack of `graph.build_graph`:
`[CallLimitMiddleware(max_node_calls=50), RetryMiddleware(retries=1, backoff_s=0.2), PIIMaskingLogMiddleware()]`. -/
def middlewareStack : List (FStep → FStep) :=
  [callLimitMW 50, retryMW 1 (1 / 5), piiMW]

/-- A node function that always succeeds, as `FStep`. -/
def liftStep (f : AppointmentState → AppointmentState) : FStep := fun s => .ok (f s)

/-- The full wrapped step `apply_middleware(node, middleware_stack)`. -/
def wrapFull (fn : FStep) : FStep :=
  apply_middleware fn middlewareStack

/-- The wrapped pipeline on an always-succeeding node, instrumented with
whether the node body was invoked (`wrapFull_liftStep` below connects this to
`wrapFull`). -/
def wrapNodeB (f : AppointmentState → AppointmentState) (s : AppointmentState) :
    Bool × AppointmentState :=
  let s1 := bumpCalls s
  if 50 < s1.meta.node_calls then (false, callLimitHit s1) else (true, maskDebug (f s1))

/-- On an always-succeeding node the full middleware pipeline is exactly the
instrumented single pass: the call-limit check, then one successful retry
attempt, then debug masking. -/
theorem wrapFull_liftStep (f : AppointmentState → AppointmentState) (s : AppointmentState) :
    wrapFull (liftStep f) s = .ok (wrapNodeB f s).2 := by
  unfold wrapFull apply_middleware middlewareStack wrapNodeB
  simp only [List.reverse_cons, List.reverse_nil, List.nil_append, List.cons_append,
    List.foldl_cons, List.foldl_nil]
  unfold callLimitMW retryMW retryLoop retryLoopAux piiMW liftStep
  by_cases h : 50 < (bumpCalls s).meta.node_calls <;> simp [h]

/-- Shorthand for the state produced by one wrapped node invocation. -/
def wrapNode (f : AppointmentState → AppointmentState) (s : AppointmentState) :
    AppointmentState :=
  (wrapNodeB f s).2

/-- One entry of the execution log: graph node name, whether the node body
ran (as opposed to the call-limit short-circuit), and the state after the
invocation. -/
structure ExecEntry where
  name : String
  ran : Bool
  post : AppointmentState
deriving Repr, DecidableEq

/-- Execution state: current context plus the log of wrapped invocations. -/
structure ExecTrace where
  state : AppointmentState
  log : List ExecEntry
deriving Repr, DecidableEq

/-- Execute one wrapped node and record it. -/
def stepExec (name : String) (f : AppointmentState → AppointmentState) (e : ExecTrace) :
    ExecTrace :=
  let p := wrapNodeB f e.state
  { state := p.2, log := e.log ++ [{ name := name, ran := p.1, post := p.2 }] }

/-- The two bindings of `graph.build_graph`'s `hitl` node: `hitl_mode="cli"`
uses the blocking `node_human_review`, any other mode uses
`node_hitl_pause`. -/
inductive GraphMode where
  | cli
  | pause
deriving Repr, DecidableEq

/-- The node bound to `hitl` in each mode. -/
def hitlNode (mode : GraphMode) (dec : ReviewDecision) :
    AppointmentState → AppointmentState :=
  match mode with
  | .cli => node_human_review dec
  | .pause => node_hitl_pause

/-- The segment of a run after `route_after_info` chose `handle_intent`:
`handle_intent → draft → hitl`, then `route_after_hitl` returns END in pause
mode and `finalize` in cli mode. -/
def runExecHitl (mode : GraphMode) (dec : ReviewDecision) (e3 : ExecTrace) : ExecTrace :=
  let e4 := stepExec "handle_intent" node_handle_intent e3
  let e5 := stepExec "draft" node_generate_draft e4
  let e6 := stepExec "hitl" (hitlNode mode dec) e5
  match mode with
  | .pause => e6
  | .cli => stepExec "finalize" node_finalize e6

/-- The segment of a run after `route_after_safety` chose `info_check`:
`info_check`, then `route_after_info` (END on `NEED_INFO`). -/
def runExecInfo (mode : GraphMode) (dec : ReviewDecision) (e2 : ExecTrace) : ExecTrace :=
  let e3 := stepExec "info_check" node_check_missing_info e2
  if e3.state.terminal_status == some "NEED_INFO" then e3
  else runExecHitl mode dec e3

/-- The compiled graph of `graph.build_graph`, driven on an initial context:
`classify_intent → safety_check`, conditional `route_after_safety` (END on
`ESCALATE`), `info_check`, conditional `route_after_info` (END on
`NEED_INFO`), `handle_intent → draft → hitl`, conditional `route_after_hitl`
(END unless cli mode), `finalize → END`.  Every node is middleware-wrapped;
the log records each wrapped invocation in order. -/
def runExec (mode : GraphMode) (dec : ReviewDecision) (s0 : AppointmentState) : ExecTrace :=
  let e1 := stepExec "classify_intent" node_classify_intent { state := s0, log := [] }
  let e2 := stepExec "safety_check" node_safety_check e1
  if e2.state.terminal_status == some "ESCALATE" then e2
  else runExecInfo mode dec e2

/-- `graph.build_graph(...).invoke(s0)`: the final context of a run. -/
def runGraph (mode : GraphMode) (dec : ReviewDecision) (s0 : AppointmentState) :
    AppointmentState :=
  (runExec mode dec s0).state

/-- The `(am|pm)` alternation of `extract_requested_timeslot` (the scanned
text is already lower-cased). -/
def ampmConsume (l : List Char) : Option (List Char × List Char) :=
  firstSome (fun kw => ciConsume kw l) [['a', 'm'], ['p', 'm']]

/-- The optional group `(:\s*\d{2})` of `extract_requested_timeslot`. -/
def colonTimeConsume (l : List Char) : Option (List Char × List Char) :=
  match l with
  | ':' :: r =>
    let sp := r.takeWhile isSpaceChar
    let rest := r.dropWhile isSpaceChar
    if (rest.take 2).length = 2 ∧ (rest.take 2).all Char.isDigit then
      some (':' :: (sp ++ rest.take 2), rest.drop 2)
    else none
  | _ => none

/-- One attempt of `\b(\d{1,2})\s*(:\s*\d{2})?\s*(am|pm)\b` at the current
position, returning Python's `f"{m.group(1)}{m.group(2) or ''}{m.group(3)}"`. -/
def matchTimeAAt (prev : Option Char) (l : List Char) : Option String :=
  if boundaryOk prev l.head? then
    firstSome (fun d =>
      firstSome (fun s1 =>
        firstSome (fun og =>
          firstSome (fun s2 =>
            match ampmConsume s2.2 with
            | some (ap, rest) =>
              if boundaryOk ap.getLast? rest.head? then
                some (String.mk d.1 ++ String.mk og.1 ++ String.mk ap)
              else none
            | none => none)
            (spaceSplits og.2))
          (optSplits colonTimeConsume s1.2))
        (spaceSplits d.2))
      (boundedSplits Char.isDigit 1 2 l)
  else none

/-- Scan for the first `am`/`pm` time expression. -/
def searchTimeA (prev : Option Char) : List Char → Option String
  | [] => matchTimeAAt prev []
  | c :: r =>
    match matchTimeAAt prev (c :: r) with
    | some x => some x
    | none => searchTimeA (some c) r

/-- The alternation `([01]?\d|2[0-3])` of the 24-hour pattern, candidate
consumptions in backtracking priority order. -/
def hourSplits (l : List Char) : List (List Char × List Char) :=
  (match l with
   | a :: b :: r => if (a = '0' || a = '1') ∧ b.isDigit then [([a, b], r)] else []
   | _ => []) ++
  (match l with
   | a :: r => if a.isDigit then [([a], r)] else []
   | _ => []) ++
  (match l with
   | a :: b :: r => if a = '2' ∧ ('0' ≤ b ∧ b ≤ '3') then [([a, b], r)] else []
   | _ => [])

/-- One attempt of `\b([01]?\d|2[0-3]):[0-5]\d\b`, returning the whole
match (`m2.group(0)`). -/
def matchTimeBAt (prev : Option Char) (l : List Char) : Option String :=
  if boundaryOk prev l.head? then
    firstSome (fun h =>
      match h.2 with
      | ':' :: m1 :: m2 :: r =>
        if ('0' ≤ m1 ∧ m1 ≤ '5') ∧ m2.isDigit ∧ boundaryOk (some m2) r.head? then
          some (String.mk (h.1 ++ ':' :: [m1, m2]))
        else none
      | _ => none) (hourSplits l)
  else none

/-- Scan for the first 24-hour time expression. -/
def searchTimeB (prev : Option Char) : List Char → Option String
  | [] => matchTimeBAt prev []
  | c :: r =>
    match matchTimeBAt prev (c :: r) with
    | some x => some x
    | none => searchTimeB (some c) r

/-- `web_app.extract_requested_timeslot`. -/
def extract_requested_timeslot (text : String) : Option String :=
  let t := lowerStr text
  match searchTimeA none t.data with
  | some x => some x
  | none => searchTimeB none t.data

/-- `web_app.check_slot_availability`: requests for 2pm (or 14:00) are
unavailable with `3:00pm` suggested; everything else is available. -/
def check_slot_availability (request_text : String) : Bool × String :=
  let slot := (extract_requested_timeslot request_text).getD ""
  let s := String.mk (slot.data.filter (fun c => c ≠ ' '))
  if s = "2pm" ∨ s = "2:00pm" ∨ s = "14:00" then (false, "3:00pm") else (true, "")

/-- `web_app.build_base_state` (the nondeterministic `new_run_id()` is a
parameter; `appointment_id or None` maps the empty string to `None`). -/
def build_base_state (run_id user_input appointment_id insurance_id : String) :
    AppointmentState :=
  { run_id := run_id,
    user_input := user_input,
    intent := none,
    risk_flag := false,
    missing_info := [],
    draft_response := none,
    final_response := none,
    terminal_status := none,
    route_trace := [],
    meta := { node_calls := 0,
              debug := none,
              appointment_id := if appointment_id = "" then none else some appointment_id,
              insurance_id := if insurance_id = "" then none else some insurance_id,
              intent_action := none,
              suggested_slot := none,
              model_provider := some "rules" } }

/-- The in-memory pause store `web_app.PENDING` (a dict keyed by run id). -/
def Store : Type := String → Option AppointmentState

/-- The empty store. -/
def emptyStore : Store := fun _ => none

/-- `PENDING[state["run_id"]] = state` (overwrites any prior entry). -/
def storePending (m : Store) (c : AppointmentState) : Store :=
  fun k => if k = c.run_id then some c else m k

/-- `PENDING.get(run_id)`: a domain-level miss is `none`, never a crash. -/
def retrievePending (m : Store) (id : String) : Option AppointmentState :=
  m id

/-- `PENDING.pop(run_id, None)` as a store update (removal; absent ids are a
no-op, never a crash). -/
def consumePending (m : Store) (id : String) : Store :=
  fun k => if k = id then none else m k

/-- Which template the `confirm` / `slot_decision` handlers render. -/
inductive WebPage where
  | redirectHome
  | resultEarly
  | resultDone
  | slotPage
  | reviewPage
deriving Repr, DecidableEq

/-- `web_app.confirm` POST handler: retrieve the pending state; on `no`,
drop it and redirect; on `yes`, run the graph in pause mode, then branch on
early end / CANCEL / RESCHEDULE / review, updating `PENDING` as the source
does.  Returns the rendered page, the displayed state (when any), and the
updated store.  The `ReviewDecision` argument is irrelevant in pause mode. -/
def confirmHandler (m : Store) (runId : String) (proceed : String) :
    WebPage × Option AppointmentState × Store :=
  match retrievePending m runId with
  | none => (.redirectHome, none, m)
  | some st =>
    if lowerStr proceed ≠ "yes" then (.redirectHome, none, consumePending m runId)
    else
      let out := runGraph .pause .approve st
      if out.terminal_status = some "NEED_INFO" ∨ out.terminal_status = some "ESCALATE" then
        (.resultEarly, some out, consumePending m runId)
      else if out.intent = some "CANCEL" then
        let out2 := node_finalize
          { out with
            final_response := some "Your appointment has been cancelled successfully. If you have any other medical needs, please book an appointment.",
            terminal_status := some "READY",
            route_trace := out.route_trace ++ ["cancel_confirmed"] }
        (.resultDone, some out2, consumePending m runId)
      else if out.intent = some "RESCHEDULE" then
        let avail := check_slot_availability st.user_input
        let out2 := { out with route_trace := out.route_trace ++ ["slot_checked"] }
        if avail.1 then
          let out3 := node_finalize
            { out2 with
              final_response := some "Your reschedule request has been completed successfully.",
              terminal_status := some "READY",
              route_trace := out2.route_trace ++ ["reschedule_success"] }
          (.resultDone, some out3, consumePending m runId)
        else
          let out3 := { out2 with meta := { out2.meta with suggested_slot := some avail.2 } }
          (.slotPage, some out3, storePending m out3)
      else
        (.reviewPage, some out, storePending m out)

/-- `web_app.slot_decision` POST handler. -/
def slotDecisionHandler (m : Store) (runId : String) (accept : String) :
    WebPage × Option AppointmentState × Store :=
  match retrievePending m runId with
  | none => (.redirectHome, none, m)
  | some st =>
    let alt := (st.meta.suggested_slot).getD ""
    let st2 :=
      if lowerStr accept = "yes" then
        node_finalize
          { st with
            final_response := some ("Your reschedule request has been completed successfully for " ++ alt ++ "."),
            terminal_status := some "READY",
            route_trace := st.route_trace ++ ["reschedule_alt_accepted"] }
      else
        node_finalize
          { st with
            final_response := some "No problem. If that time does not work, I suggest booking a new appointment for a time that better fits your schedule.",
            terminal_status := some "READY",
            route_trace := st.route_trace ++ ["reschedule_alt_declined"] }
    (.resultDone, some st2, consumePending m runId)

/-- The initial context built by `main.py` for a CLI run (fresh `run_id`
modelled as a parameter, default provider). -/
def freshState (runId inp : String) : AppointmentState :=
  { run_id := runId,
    user_input := inp,
    intent := none,
    risk_flag := false,
    missing_info := [],
    draft_response := none,
    final_response := none,
    terminal_status := none,
    route_trace := [],
    meta := { node_calls := 0,
              debug := none,
              appointment_id := none,
              insurance_id := none,
              intent_action := none,
              suggested_slot := none,
              model_provider := some "rules" } }

theorem stepExec_state (n : String) (f : AppointmentState → AppointmentState) (e : ExecTrace) :
    (stepExec n f e).state = wrapNode f e.state := rfl

theorem stepExec_log (n : String) (f : AppointmentState → AppointmentState) (e : ExecTrace) :
    (stepExec n f e).log =
      e.log ++ [{ name := n, ran := (wrapNodeB f e.state).1, post := wrapNode f e.state }] := rfl


theorem classify_meta (s : AppointmentState) : (node_classify_intent s).meta = s.meta := rfl

theorem classify_terminal (s : AppointmentState) :
    (node_classify_intent s).terminal_status = s.terminal_status := rfl

theorem classify_final (s : AppointmentState) :
    (node_classify_intent s).final_response = s.final_response := rfl

theorem classify_draft (s : AppointmentState) :
    (node_classify_intent s).draft_response = s.draft_response := rfl

theorem classify_trace (s : AppointmentState) :
    (node_classify_intent s).route_trace = s.route_trace ++ ["classify_intent"] := rfl

theorem safety_meta (s : AppointmentState) : (node_safety_check s).meta = s.meta := by
  unfold node_safety_check
  split <;> rfl

theorem safety_terminal (s : AppointmentState) :
    (node_safety_check s).terminal_status =
      if emergencyHit s.user_input then some "ESCALATE" else s.terminal_status := by
  unfold node_safety_check
  split <;> simp_all

theorem safety_final (s : AppointmentState) :
    (node_safety_check s).final_response =
      if emergencyHit s.user_input then some safetyEscalateMsg else s.final_response := by
  unfold node_safety_check
  split <;> simp_all

theorem safety_draft (s : AppointmentState) :
    (node_safety_check s).draft_response = s.draft_response := by
  unfold node_safety_check
  split <;> rfl

theorem safety_trace (s : AppointmentState) :
    (node_safety_check s).route_trace =
      s.route_trace ++ [if emergencyHit s.user_input then "safety_escalate" else "safety_ok"] := by
  unfold node_safety_check
  split <;> simp_all

theorem info_meta (s : AppointmentState) : (node_check_missing_info s).meta = s.meta := by
  unfold node_check_missing_info
  dsimp only
  split <;> rfl

theorem info_terminal (s : AppointmentState) :
    (node_check_missing_info s).terminal_status =
      if infoMissing s = [] then s.terminal_status else some "NEED_INFO" := by
  unfold node_check_missing_info
  dsimp only
  split <;> rename_i h <;> simp_all

theorem info_final (s : AppointmentState) :
    (node_check_missing_info s).final_response =
      if infoMissing s = [] then s.final_response
      else some
        (if s.intent = some "RESCHEDULE" then needInfoRescheduleMsg
         else if s.intent = some "CANCEL" then needInfoCancelMsg
         else needInfoGenericMsg) := by
  unfold node_check_missing_info
  dsimp only
  split <;> rename_i h <;> simp_all

theorem info_draft (s : AppointmentState) :
    (node_check_missing_info s).draft_response = s.draft_response := by
  unfold node_check_missing_info
  dsimp only
  split <;> rfl

theorem info_trace (s : AppointmentState) :
    (node_check_missing_info s).route_trace =
      s.route_trace ++ [if infoMissing s = [] then "info_complete" else "need_info"] := by
  unfold node_check_missing_info
  dsimp only
  split <;> rename_i h <;> simp_all

theorem handle_calls (s : AppointmentState) :
    (node_handle_intent s).meta.node_calls = s.meta.node_calls := rfl

theorem handle_terminal (s : AppointmentState) :
    (node_handle_intent s).terminal_status = s.terminal_status := rfl

theorem handle_final (s : AppointmentState) :
    (node_handle_intent s).final_response = s.final_response := rfl

theorem handle_draft (s : AppointmentState) :
    (node_handle_intent s).draft_response = s.draft_response := rfl

theorem handle_trace (s : AppointmentState) :
    (node_handle_intent s).route_trace = s.route_trace ++ ["handle_intent"] := rfl

theorem draft_meta (s : AppointmentState) : (node_generate_draft s).meta = s.meta := rfl

theorem draft_terminal (s : AppointmentState) :
    (node_generate_draft s).terminal_status = s.terminal_status := rfl

theorem draft_final (s : AppointmentState) :
    (node_generate_draft s).final_response = s.final_response := rfl

theorem draft_resp (s : AppointmentState) :
    (node_generate_draft s).draft_response = some (draftText s) := rfl

theorem draft_trace (s : AppointmentState) :
    (node_generate_draft s).route_trace = s.route_trace ++ ["draft_generated"] := rfl

theorem draftText_ne_empty (s : AppointmentState) : draftText s ≠ "" := by
  unfold draftText
  split
  · simp [draftRescheduleMsg]
  · split
    · simp [draftCancelMsg]
    · split
      · dsimp only
        split
        · simp [draftMriMsg]
        · split
          · simp [draftCtMsg]
          · split
            · simp [draftUltrasoundMsg]
            · simp [draftPrepGenericMsg]
      · simp [draftUnknownMsg]

/-- The trace entries appended by the blocking human review. -/
def reviewTraceTokens : ReviewDecision → List String
  | .approve => ["hitl_approve", "hitl_completed"]
  | .edit _ => ["hitl_edit", "hitl_completed"]

theorem review_meta (dec : ReviewDecision) (s : AppointmentState) :
    (node_human_review dec s).meta = s.meta := by
  cases dec <;> rfl

theorem review_terminal (dec : ReviewDecision) (s : AppointmentState) :
    (node_human_review dec s).terminal_status = some "READY" := by
  cases dec <;> rfl

theorem review_final (dec : ReviewDecision) (s : AppointmentState) :
    (node_human_review dec s).final_response =
      match dec with
      | .approve => s.draft_response
      | .edit t => if pyStrip t ≠ "" then some (pyStrip t) else s.draft_response := by
  cases dec <;> rfl

theorem review_trace (dec : ReviewDecision) (s : AppointmentState) :
    (node_human_review dec s).route_trace = s.route_trace ++ reviewTraceTokens dec := by
  cases dec <;> simp [node_human_review, reviewTraceTokens]

theorem pause_meta (s : AppointmentState) : (node_hitl_pause s).meta = s.meta := rfl

theorem pause_terminal (s : AppointmentState) :
    (node_hitl_pause s).terminal_status = s.terminal_status := rfl

theorem pause_final (s : AppointmentState) :
    (node_hitl_pause s).final_response = s.final_response := rfl

theorem pause_draft (s : AppointmentState) :
    (node_hitl_pause s).draft_response = s.draft_response := rfl

theorem pause_trace (s : AppointmentState) :
    (node_hitl_pause s).route_trace = s.route_trace ++ ["hitl_pause"] := rfl

theorem finalize_meta (s : AppointmentState) : (node_finalize s).meta = s.meta := by
  unfold node_finalize
  split <;> rfl

theorem finalize_terminal (s : AppointmentState) :
    (node_finalize s).terminal_status =
      if optTruthy s.terminal_status then s.terminal_status else some "READY" := by
  unfold node_finalize
  split <;> simp_all

theorem finalize_final (s : AppointmentState) :
    (node_finalize s).final_response = s.final_response := by
  unfold node_finalize
  split <;> rfl

theorem finalize_draft (s : AppointmentState) :
    (node_finalize s).draft_response = s.draft_response := by
  unfold node_finalize
  split <;> rfl

theorem finalize_trace (s : AppointmentState) :
    (node_finalize s).route_trace = s.route_trace ++ ["finalize"] := by
  unfold node_finalize
  split <;> rfl

theorem bumpCalls_calls (s : AppointmentState) :
    (bumpCalls s).meta.node_calls = s.meta.node_calls + 1 := rfl

theorem bumpCalls_terminal (s : AppointmentState) :
    (bumpCalls s).terminal_status = s.terminal_status := rfl

theorem bumpCalls_final (s : AppointmentState) :
    (bumpCalls s).final_response = s.final_response := rfl

theorem bumpCalls_draft (s : AppointmentState) :
    (bumpCalls s).draft_response = s.draft_response := rfl

theorem bumpCalls_trace (s : AppointmentState) :
    (bumpCalls s).route_trace = s.route_trace := rfl

theorem bumpCalls_debug (s : AppointmentState) :
    (bumpCalls s).meta.debug = s.meta.debug := rfl

theorem callLimitHit_terminal (s : AppointmentState) :
    (callLimitHit s).terminal_status = some "ESCALATE" := rfl

theorem callLimitHit_final (s : AppointmentState) :
    (callLimitHit s).final_response = some callLimitMsg := rfl

theorem callLimitHit_trace (s : AppointmentState) :
    (callLimitHit s).route_trace = s.route_trace ++ ["call_limit_exceeded"] := rfl

theorem callLimitHit_meta (s : AppointmentState) : (callLimitHit s).meta = s.meta := rfl

theorem callLimitHit_draft (s : AppointmentState) :
    (callLimitHit s).draft_response = s.draft_response := rfl

theorem maskDebug_calls (s : AppointmentState) :
    (maskDebug s).meta.node_calls = s.meta.node_calls := rfl

theorem maskDebug_terminal (s : AppointmentState) :
    (maskDebug s).terminal_status = s.terminal_status := rfl

theorem maskDebug_final (s : AppointmentState) :
    (maskDebug s).final_response = s.final_response := rfl

theorem maskDebug_draft (s : AppointmentState) :
    (maskDebug s).draft_response = s.draft_response := rfl

theorem maskDebug_trace (s : AppointmentState) :
    (maskDebug s).route_trace = s.route_trace := rfl

/-- The call-limit governor short-circuits exactly when the incremented
counter exceeds the ceiling (with the ceiling 50 of `build_graph`). -/
theorem wrapNodeB_over (f : AppointmentState → AppointmentState) (s : AppointmentState)
    (h : 50 ≤ s.meta.node_calls) : wrapNodeB f s = (false, callLimitHit (bumpCalls s)) := by
  unfold wrapNodeB
  rw [if_pos]
  rw [bumpCalls_calls]
  omega

theorem wrapNodeB_under (f : AppointmentState → AppointmentState) (s : AppointmentState)
    (h : s.meta.node_calls < 50) : wrapNodeB f s = (true, maskDebug (f (bumpCalls s))) := by
  unfold wrapNodeB
  rw [if_neg]
  rw [bumpCalls_calls]
  omega

theorem wrapNode_over (f : AppointmentState → AppointmentState) (s : AppointmentState)
    (h : 50 ≤ s.meta.node_calls) : wrapNode f s = callLimitHit (bumpCalls s) := by
  unfold wrapNode
  rw [wrapNodeB_over f s h]

theorem wrapNode_under (f : AppointmentState → AppointmentState) (s : AppointmentState)
    (h : s.meta.node_calls < 50) : wrapNode f s = maskDebug (f (bumpCalls s)) := by
  unfold wrapNode
  rw [wrapNodeB_under f s h]

/-- Any wrapped invocation advances the per-run counter by exactly one,
provided the node body itself leaves the counter alone (true of all seven
nodes). -/
theorem wrapNode_calls (f : AppointmentState → AppointmentState) (s : AppointmentState)
    (hf : ∀ t, (f t).meta.node_calls = t.meta.node_calls) :
    (wrapNode f s).meta.node_calls = s.meta.node_calls + 1 := by
  rcases Nat.lt_or_ge s.meta.node_calls 50 with h | h
  · rw [wrapNode_under f s h, maskDebug_calls, hf, bumpCalls_calls]
  · rw [wrapNode_over f s h, callLimitHit_meta, bumpCalls_calls]

theorem classify_calls (s : AppointmentState) :
    (node_classify_intent s).meta.node_calls = s.meta.node_calls := rfl

theorem safety_calls (s : AppointmentState) :
    (node_safety_check s).meta.node_calls = s.meta.node_calls := by rw [safety_meta]

theorem info_calls (s : AppointmentState) :
    (node_check_missing_info s).meta.node_calls = s.meta.node_calls := by rw [info_meta]

theorem draft_calls (s : AppointmentState) :
    (node_generate_draft s).meta.node_calls = s.meta.node_calls := rfl

theorem review_calls (dec : ReviewDecision) (s : AppointmentState) :
    (node_human_review dec s).meta.node_calls = s.meta.node_calls := by rw [review_meta]

theorem pause_calls (s : AppointmentState) :
    (node_hitl_pause s).meta.node_calls = s.meta.node_calls := rfl

theorem finalize_calls (s : AppointmentState) :
    (node_finalize s).meta.node_calls = s.meta.node_calls := by rw [finalize_meta]

theorem hitlNode_calls (mode : GraphMode) (dec : ReviewDecision) (s : AppointmentState) :
    (hitlNode mode dec s).meta.node_calls = s.meta.node_calls := by
  cases mode
  · exact review_calls dec s
  · exact pause_calls s

/-- Stage abbreviations for the successive wrapped invocations of a run. -/
def ex1 (s0 : AppointmentState) : ExecTrace :=
  stepExec "classify_intent" node_classify_intent { state := s0, log := [] }

def ex2 (s0 : AppointmentState) : ExecTrace :=
  stepExec "safety_check" node_safety_check (ex1 s0)

def ex3 (s0 : AppointmentState) : ExecTrace :=
  stepExec "info_check" node_check_missing_info (ex2 s0)

def ex4 (s0 : AppointmentState) : ExecTrace :=
  stepExec "handle_intent" node_handle_intent (ex3 s0)

def ex5 (s0 : AppointmentState) : ExecTrace :=
  stepExec "draft" node_generate_draft (ex4 s0)

def ex6 (mode : GraphMode) (dec : ReviewDecision) (s0 : AppointmentState) : ExecTrace :=
  stepExec "hitl" (hitlNode mode dec) (ex5 s0)

def ex7 (dec : ReviewDecision) (s0 : AppointmentState) : ExecTrace :=
  stepExec "finalize" node_finalize (ex6 .cli dec s0)

theorem runExec_eq (mode : GraphMode) (dec : ReviewDecision) (s0 : AppointmentState) :
    runExec mode dec s0 =
      if ((ex2 s0).state.terminal_status == some "ESCALATE") = true then ex2 s0
      else runExecInfo mode dec (ex2 s0) := rfl

theorem runExecInfo_eq (mode : GraphMode) (dec : ReviewDecision) (s0 : AppointmentState) :
    runExecInfo mode dec (ex2 s0) =
      if ((ex3 s0).state.terminal_status == some "NEED_INFO") = true then ex3 s0
      else runExecHitl mode dec (ex3 s0) := rfl

theorem runExecHitl_pause (dec : ReviewDecision) (s0 : AppointmentState) :
    runExecHitl .pause dec (ex3 s0) = ex6 .pause dec s0 := rfl

theorem runExecHitl_cli (dec : ReviewDecision) (s0 : AppointmentState) :
    runExecHitl .cli dec (ex3 s0) = ex7 dec s0 := rfl

theorem ex1_state (s0 : AppointmentState) :
    (ex1 s0).state = wrapNode node_classify_intent s0 := rfl

theorem ex2_state (s0 : AppointmentState) :
    (ex2 s0).state = wrapNode node_safety_check (ex1 s0).state := rfl

theorem ex3_state (s0 : AppointmentState) :
    (ex3 s0).state = wrapNode node_check_missing_info (ex2 s0).state := rfl

theorem ex4_state (s0 : AppointmentState) :
    (ex4 s0).state = wrapNode node_handle_intent (ex3 s0).state := rfl

theorem ex5_state (s0 : AppointmentState) :
    (ex5 s0).state = wrapNode node_generate_draft (ex4 s0).state := rfl

theorem ex6_state (mode : GraphMode) (dec : ReviewDecision) (s0 : AppointmentState) :
    (ex6 mode dec s0).state = wrapNode (hitlNode mode dec) (ex5 s0).state := by
  unfold ex6
  exact stepExec_state _ _ _

theorem ex7_state (dec : ReviewDecision) (s0 : AppointmentState) :
    (ex7 dec s0).state = wrapNode node_finalize (ex6 .cli dec s0).state := by
  unfold ex7
  exact stepExec_state _ _ _

theorem ex1_calls (s0 : AppointmentState) :
    (ex1 s0).state.meta.node_calls = s0.meta.node_calls + 1 := by
  rw [ex1_state, wrapNode_calls _ _ classify_calls]

theorem ex2_calls (s0 : AppointmentState) :
    (ex2 s0).state.meta.node_calls = s0.meta.node_calls + 2 := by
  rw [ex2_state, wrapNode_calls _ _ safety_calls, ex1_calls]

theorem ex3_calls (s0 : AppointmentState) :
    (ex3 s0).state.meta.node_calls = s0.meta.node_calls + 3 := by
  rw [ex3_state, wrapNode_calls _ _ info_calls, ex2_calls]

theorem ex4_calls (s0 : AppointmentState) :
    (ex4 s0).state.meta.node_calls = s0.meta.node_calls + 4 := by
  rw [ex4_state, wrapNode_calls _ _ handle_calls, ex3_calls]

theorem ex5_calls (s0 : AppointmentState) :
    (ex5 s0).state.meta.node_calls = s0.meta.node_calls + 5 := by
  rw [ex5_state, wrapNode_calls _ _ draft_calls, ex4_calls]

theorem ex6_calls (mode : GraphMode) (dec : ReviewDecision) (s0 : AppointmentState) :
    (ex6 mode dec s0).state.meta.node_calls = s0.meta.node_calls + 6 := by
  rw [ex6_state, wrapNode_calls _ _ (hitlNode_calls mode dec), ex5_calls]

theorem bumpCalls_input (s : AppointmentState) : (bumpCalls s).user_input = s.user_input := rfl

theorem maskDebug_input (s : AppointmentState) : (maskDebug s).user_input = s.user_input := rfl

theorem callLimitHit_input (s : AppointmentState) :
    (callLimitHit s).user_input = s.user_input := rfl

theorem classify_input (s : AppointmentState) :
    (node_classify_intent s).user_input = s.user_input := rfl

theorem safety_input (s : AppointmentState) :
    (node_safety_check s).user_input = s.user_input := by
  unfold node_safety_check
  split <;> rfl

theorem info_input (s : AppointmentState) :
    (node_check_missing_info s).user_input = s.user_input := by
  unfold node_check_missing_info
  dsimp only
  split <;> rfl

theorem handle_input (s : AppointmentState) :
    (node_handle_intent s).user_input = s.user_input := rfl

theorem draft_input (s : AppointmentState) :
    (node_generate_draft s).user_input = s.user_input := rfl

theorem hitlNode_input (mode : GraphMode) (dec : ReviewDecision) (s : AppointmentState) :
    (hitlNode mode dec s).user_input = s.user_input := by
  cases mode <;> cases dec <;> rfl

theorem finalize_input (s : AppointmentState) :
    (node_finalize s).user_input = s.user_input := by
  unfold node_finalize
  split <;> rfl

theorem wrapNode_input (f : AppointmentState → AppointmentState) (s : AppointmentState)
    (hf : ∀ t, (f t).user_input = t.user_input) :
    (wrapNode f s).user_input = s.user_input := by
  rcases Nat.lt_or_ge s.meta.node_calls 50 with h | h
  · rw [wrapNode_under f s h, maskDebug_input, hf, bumpCalls_input]
  · rw [wrapNode_over f s h, callLimitHit_input, bumpCalls_input]

theorem ex1_input (s0 : AppointmentState) : (ex1 s0).state.user_input = s0.user_input := by
  rw [ex1_state, wrapNode_input _ _ classify_input]

theorem ex2_input (s0 : AppointmentState) : (ex2 s0).state.user_input = s0.user_input := by
  rw [ex2_state, wrapNode_input _ _ safety_input, ex1_input]

/-- Terminal status after the wrapped `classify_intent` invocation. -/
theorem ex1_terminal (s0 : AppointmentState) :
    (ex1 s0).state.terminal_status =
      if 50 ≤ s0.meta.node_calls then some "ESCALATE" else s0.terminal_status := by
  rw [ex1_state]
  rcases Nat.lt_or_ge s0.meta.node_calls 50 with h | h
  · rw [wrapNode_under _ _ h, maskDebug_terminal, classify_terminal, bumpCalls_terminal,
      if_neg (by omega)]
  · rw [wrapNode_over _ _ h, callLimitHit_terminal, if_pos h]

/-- Terminal status after the wrapped `safety_check` invocation. -/
theorem ex2_terminal (s0 : AppointmentState) :
    (ex2 s0).state.terminal_status =
      if 49 ≤ s0.meta.node_calls then some "ESCALATE"
      else if emergencyHit s0.user_input then some "ESCALATE"
      else s0.terminal_status := by
  rw [ex2_state]
  rcases Nat.lt_or_ge s0.meta.node_calls 49 with h | h
  · rw [wrapNode_under _ _ (by rw [ex1_calls]; omega), maskDebug_terminal, safety_terminal,
      bumpCalls_input, ex1_input, bumpCalls_terminal, ex1_terminal,
      if_neg (show ¬(50 ≤ s0.meta.node_calls) by omega),
      if_neg (show ¬(49 ≤ s0.meta.node_calls) by omega)]
  · rw [wrapNode_over _ _ (by rw [ex1_calls]; omega), callLimitHit_terminal,
      if_pos (show 49 ≤ s0.meta.node_calls by omega)]

/-- The `missing` list as seen by the wrapped `info_check` invocation. -/
def miss3 (s0 : AppointmentState) : List String :=
  infoMissing (bumpCalls (ex2 s0).state)

/-- Terminal status after the wrapped `info_check` invocation. -/
theorem ex3_terminal (s0 : AppointmentState) :
    (ex3 s0).state.terminal_status =
      if 48 ≤ s0.meta.node_calls then some "ESCALATE"
      else if miss3 s0 ≠ [] then some "NEED_INFO"
      else if emergencyHit s0.user_input then some "ESCALATE"
      else s0.terminal_status := by
  rw [ex3_state]
  rcases Nat.lt_or_ge s0.meta.node_calls 48 with h | h
  · rw [wrapNode_under _ _ (by rw [ex2_calls]; omega), maskDebug_terminal, info_terminal,
      bumpCalls_terminal, ex2_terminal, if_neg (show ¬(49 ≤ s0.meta.node_calls) by omega),
      if_neg (show ¬(48 ≤ s0.meta.node_calls) by omega)]
    unfold miss3
    by_cases hm : infoMissing (bumpCalls (ex2 s0).state) = [] <;> simp [hm]
  · rw [wrapNode_over _ _ (by rw [ex2_calls]; omega), callLimitHit_terminal,
      if_pos (show 48 ≤ s0.meta.node_calls by omega)]

/-- Terminal status after the wrapped `handle_intent` invocation. -/
theorem ex4_terminal (s0 : AppointmentState) :
    (ex4 s0).state.terminal_status =
      if 47 ≤ s0.meta.node_calls then some "ESCALATE"
      else if miss3 s0 ≠ [] then some "NEED_INFO"
      else if emergencyHit s0.user_input then some "ESCALATE"
      else s0.terminal_status := by
  rw [ex4_state]
  rcases Nat.lt_or_ge s0.meta.node_calls 47 with h | h
  · rw [wrapNode_under _ _ (by rw [ex3_calls]; omega), maskDebug_terminal, handle_terminal,
      bumpCalls_terminal, ex3_terminal, if_neg (show ¬(48 ≤ s0.meta.node_calls) by omega),
      if_neg (show ¬(47 ≤ s0.meta.node_calls) by omega)]
  · rw [wrapNode_over _ _ (by rw [ex3_calls]; omega), callLimitHit_terminal,
      if_pos (show 47 ≤ s0.meta.node_calls by omega)]

/-- Terminal status after the wrapped `draft` invocation. -/
theorem ex5_terminal (s0 : AppointmentState) :
    (ex5 s0).state.terminal_status =
      if 46 ≤ s0.meta.node_calls then some "ESCALATE"
      else if miss3 s0 ≠ [] then some "NEED_INFO"
      else if emergencyHit s0.user_input then some "ESCALATE"
      else s0.terminal_status := by
  rw [ex5_state]
  rcases Nat.lt_or_ge s0.meta.node_calls 46 with h | h
  · rw [wrapNode_under _ _ (by rw [ex4_calls]; omega), maskDebug_terminal, draft_terminal,
      bumpCalls_terminal, ex4_terminal, if_neg (show ¬(47 ≤ s0.meta.node_calls) by omega),
      if_neg (show ¬(46 ≤ s0.meta.node_calls) by omega)]
  · rw [wrapNode_over _ _ (by rw [ex4_calls]; omega), callLimitHit_terminal,
      if_pos (show 46 ≤ s0.meta.node_calls by omega)]

/-- Terminal status after the wrapped pause-mode `hitl` invocation. -/
theorem ex6_pause_terminal (dec : ReviewDecision) (s0 : AppointmentState) :
    (ex6 .pause dec s0).state.terminal_status =
      if 45 ≤ s0.meta.node_calls then some "ESCALATE"
      else if miss3 s0 ≠ [] then some "NEED_INFO"
      else if emergencyHit s0.user_input then some "ESCALATE"
      else s0.terminal_status := by
  rw [ex6_state]
  rcases Nat.lt_or_ge s0.meta.node_calls 45 with h | h
  · rw [wrapNode_under _ _ (by rw [ex5_calls]; omega), maskDebug_terminal]
    show (node_hitl_pause _).terminal_status = _
    rw [pause_terminal, bumpCalls_terminal, ex5_terminal,
      if_neg (show ¬(46 ≤ s0.meta.node_calls) by omega),
      if_neg (show ¬(45 ≤ s0.meta.node_calls) by omega)]
  · rw [wrapNode_over _ _ (by rw [ex5_calls]; omega), callLimitHit_terminal,
      if_pos (show 45 ≤ s0.meta.node_calls by omega)]

/-- Terminal status after the wrapped blocking `hitl` invocation: the review
always marks the run `READY`, unless the governor fires. -/
theorem ex6_cli_terminal (dec : ReviewDecision) (s0 : AppointmentState) :
    (ex6 .cli dec s0).state.terminal_status =
      if 45 ≤ s0.meta.node_calls then some "ESCALATE" else some "READY" := by
  rw [ex6_state]
  rcases Nat.lt_or_ge s0.meta.node_calls 45 with h | h
  · rw [wrapNode_under _ _ (by rw [ex5_calls]; omega), maskDebug_terminal]
    show (node_human_review dec _).terminal_status = _
    rw [review_terminal, if_neg (show ¬(45 ≤ s0.meta.node_calls) by omega)]
  · rw [wrapNode_over _ _ (by rw [ex5_calls]; omega), callLimitHit_terminal,
      if_pos (show 45 ≤ s0.meta.node_calls by omega)]

/-- Terminal status after the wrapped `finalize` invocation in cli mode. -/
theorem ex7_terminal (dec : ReviewDecision) (s0 : AppointmentState) :
    (ex7 dec s0).state.terminal_status =
      if 44 ≤ s0.meta.node_calls then some "ESCALATE" else some "READY" := by
  rw [ex7_state]
  rcases Nat.lt_or_ge s0.meta.node_calls 44 with h | h
  · rw [wrapNode_under _ _ (by rw [ex6_calls]; omega), maskDebug_terminal, finalize_terminal,
      bumpCalls_terminal, ex6_cli_terminal, if_neg (show ¬(45 ≤ s0.meta.node_calls) by omega),
      if_neg (show ¬(44 ≤ s0.meta.node_calls) by omega)]
    rfl
  · rw [wrapNode_over _ _ (by rw [ex6_calls]; omega), callLimitHit_terminal,
      if_pos (show 44 ≤ s0.meta.node_calls by omega)]

/-- C1 (amended): `runGraph` is a total function, so every run terminates;
in blocking-review (cli) mode the returned context's `terminal_status` is
always one of the three defined values; in pause-on-review mode, for a run
started with `terminal_status` unset, the returned context's
`terminal_status` is either one of the three defined values or still unset
(the run paused at the `hitl` node awaiting external review). -/
theorem C1_run_terminal_amended (mode : GraphMode) (dec : ReviewDecision)
    (s0 : AppointmentState) :
    (mode = .cli →
      ∃ t, (runGraph mode dec s0).terminal_status = some t ∧ t ∈ terminalValues) ∧
    (s0.terminal_status = none →
      (runGraph mode dec s0).terminal_status = none ∨
        ∃ t, (runGraph mode dec s0).terminal_status = some t ∧ t ∈ terminalValues) := by
  unfold runGraph
  rw [runExec_eq]
  by_cases h2 : ((ex2 s0).state.terminal_status == some "ESCALATE") = true
  · rw [if_pos h2]
    rw [beq_iff_eq] at h2
    exact ⟨fun _ => ⟨"ESCALATE", h2, by simp [terminalValues]⟩,
           fun _ => Or.inr ⟨"ESCALATE", h2, by simp [terminalValues]⟩⟩
  · rw [if_neg h2, runExecInfo_eq]
    by_cases h3 : ((ex3 s0).state.terminal_status == some "NEED_INFO") = true
    · rw [if_pos h3]
      rw [beq_iff_eq] at h3
      exact ⟨fun _ => ⟨"NEED_INFO", h3, by simp [terminalValues]⟩,
             fun _ => Or.inr ⟨"NEED_INFO", h3, by simp [terminalValues]⟩⟩
    · rw [if_neg h3]
      cases mode
      · rw [runExecHitl_cli]
        have h7 := ex7_terminal dec s0
        constructor
        · intro _
          by_cases hc : 44 ≤ s0.meta.node_calls
          · exact ⟨"ESCALATE", by rw [h7, if_pos hc], by simp [terminalValues]⟩
          · exact ⟨"READY", by rw [h7, if_neg hc], by simp [terminalValues]⟩
        · intro _
          by_cases hc : 44 ≤ s0.meta.node_calls
          · exact Or.inr ⟨"ESCALATE", by rw [h7, if_pos hc], by simp [terminalValues]⟩
          · exact Or.inr ⟨"READY", by rw [h7, if_neg hc], by simp [terminalValues]⟩
      · rw [runExecHitl_pause]
        refine ⟨fun hmode => absurd hmode (by decide), fun h0 => ?_⟩
        have h6 := ex6_pause_terminal dec s0
        by_cases hc : 45 ≤ s0.meta.node_calls
        · exact Or.inr ⟨"ESCALATE", by rw [h6, if_pos hc], by simp [terminalValues]⟩
        · rw [if_neg hc] at h6
          by_cases hm : miss3 s0 ≠ []
          · exact Or.inr ⟨"NEED_INFO", by rw [h6, if_pos hm], by simp [terminalValues]⟩
          · rw [if_neg hm] at h6
            by_cases he : emergencyHit s0.user_input
            · exact Or.inr ⟨"ESCALATE", by rw [h6, if_pos he], by simp [terminalValues]⟩
            · rw [if_neg he, h0] at h6
              exact Or.inl h6

/-- C1 counterexample: in pause-on-review mode a fresh, unremarkable run
("hello") returns with `terminal_status` still unset — not one of the three
defined values, as the claim requires of both graph modes. -/
theorem C1_counterexample :
    (runGraph .pause .approve (freshState "run-1" "hello")).terminal_status = none ∧
    ∀ t, t ∈ terminalValues →
      (runGraph .pause .approve (freshState "run-1" "hello")).terminal_status ≠ some t := by
  constructor
  · rfl
  · intro t _ h
    rw [show (runGraph .pause .approve (freshState "run-1" "hello")).terminal_status = none
        from rfl] at h
    exact Option.noConfusion h

theorem C1_witness :
    (∃ t, (runGraph .cli .approve (freshState "run-1" "hi")).terminal_status = some t ∧
      t ∈ terminalValues) ∧
    ((runGraph .pause .approve (freshState "run-1" "hi")).terminal_status = none ∨
      ∃ t, (runGraph .pause .approve (freshState "run-1" "hi")).terminal_status = some t ∧
        t ∈ terminalValues) :=
  ⟨(C1_run_terminal_amended .cli .approve (freshState "run-1" "hi")).1 rfl,
   (C1_run_terminal_amended .pause .approve (freshState "run-1" "hi")).2 rfl⟩

/-- The `need_info` message chosen by `node_check_missing_info`. -/
def needInfoMsgFor (s : AppointmentState) : String :=
  if s.intent = some "RESCHEDULE" then needInfoRescheduleMsg
  else if s.intent = some "CANCEL" then needInfoCancelMsg
  else needInfoGenericMsg

theorem ex1_final (s0 : AppointmentState) :
    (ex1 s0).state.final_response =
      if 50 ≤ s0.meta.node_calls then some callLimitMsg else s0.final_response := by
  rw [ex1_state]
  rcases Nat.lt_or_ge s0.meta.node_calls 50 with h | h
  · rw [wrapNode_under _ _ h, maskDebug_final, classify_final, bumpCalls_final,
      if_neg (show ¬(50 ≤ s0.meta.node_calls) by omega)]
  · rw [wrapNode_over _ _ h, callLimitHit_final, if_pos h]

theorem ex2_final (s0 : AppointmentState) :
    (ex2 s0).state.final_response =
      if 49 ≤ s0.meta.node_calls then some callLimitMsg
      else if emergencyHit s0.user_input then some safetyEscalateMsg
      else s0.final_response := by
  rw [ex2_state]
  rcases Nat.lt_or_ge s0.meta.node_calls 49 with h | h
  · rw [wrapNode_under _ _ (by rw [ex1_calls]; omega), maskDebug_final, safety_final,
      bumpCalls_input, ex1_input, bumpCalls_final, ex1_final,
      if_neg (show ¬(50 ≤ s0.meta.node_calls) by omega),
      if_neg (show ¬(49 ≤ s0.meta.node_calls) by omega)]
  · rw [wrapNode_over _ _ (by rw [ex1_calls]; omega), callLimitHit_final,
      if_pos (show 49 ≤ s0.meta.node_calls by omega)]

theorem ex3_final (s0 : AppointmentState) :
    (ex3 s0).state.final_response =
      if 48 ≤ s0.meta.node_calls then some callLimitMsg
      else if miss3 s0 ≠ [] then some (needInfoMsgFor (bumpCalls (ex2 s0).state))
      else if emergencyHit s0.user_input then some safetyEscalateMsg
      else s0.final_response := by
  rw [ex3_state]
  rcases Nat.lt_or_ge s0.meta.node_calls 48 with h | h
  · rw [wrapNode_under _ _ (by rw [ex2_calls]; omega), maskDebug_final, info_final,
      bumpCalls_final, ex2_final, if_neg (show ¬(49 ≤ s0.meta.node_calls) by omega),
      if_neg (show ¬(48 ≤ s0.meta.node_calls) by omega)]
    unfold miss3 needInfoMsgFor
    by_cases hm : infoMissing (bumpCalls (ex2 s0).state) = [] <;> simp [hm]
  · rw [wrapNode_over _ _ (by rw [ex2_calls]; omega), callLimitHit_final,
      if_pos (show 48 ≤ s0.meta.node_calls by omega)]

theorem ex4_final (s0 : AppointmentState) :
    (ex4 s0).state.final_response =
      if 47 ≤ s0.meta.node_calls then some callLimitMsg
      else if miss3 s0 ≠ [] then some (needInfoMsgFor (bumpCalls (ex2 s0).state))
      else if emergencyHit s0.user_input then some safetyEscalateMsg
      else s0.final_response := by
  rw [ex4_state]
  rcases Nat.lt_or_ge s0.meta.node_calls 47 with h | h
  · rw [wrapNode_under _ _ (by rw [ex3_calls]; omega), maskDebug_final, handle_final,
      bumpCalls_final, ex3_final, if_neg (show ¬(48 ≤ s0.meta.node_calls) by omega),
      if_neg (show ¬(47 ≤ s0.meta.node_calls) by omega)]
  · rw [wrapNode_over _ _ (by rw [ex3_calls]; omega), callLimitHit_final,
      if_pos (show 47 ≤ s0.meta.node_calls by omega)]

theorem ex5_final (s0 : AppointmentState) :
    (ex5 s0).state.final_response =
      if 46 ≤ s0.meta.node_calls then some callLimitMsg
      else if miss3 s0 ≠ [] then some (needInfoMsgFor (bumpCalls (ex2 s0).state))
      else if emergencyHit s0.user_input then some safetyEscalateMsg
      else s0.final_response := by
  rw [ex5_state]
  rcases Nat.lt_or_ge s0.meta.node_calls 46 with h | h
  · rw [wrapNode_under _ _ (by rw [ex4_calls]; omega), maskDebug_final, draft_final,
      bumpCalls_final, ex4_final, if_neg (show ¬(47 ≤ s0.meta.node_calls) by omega),
      if_neg (show ¬(46 ≤ s0.meta.node_calls) by omega)]
  · rw [wrapNode_over _ _ (by rw [ex4_calls]; omega), callLimitHit_final,
      if_pos (show 46 ≤ s0.meta.node_calls by omega)]

theorem ex6_pause_final (dec : ReviewDecision) (s0 : AppointmentState) :
    (ex6 .pause dec s0).state.final_response =
      if 45 ≤ s0.meta.node_calls then some callLimitMsg
      else if miss3 s0 ≠ [] then some (needInfoMsgFor (bumpCalls (ex2 s0).state))
      else if emergencyHit s0.user_input then some safetyEscalateMsg
      else s0.final_response := by
  rw [ex6_state]
  rcases Nat.lt_or_ge s0.meta.node_calls 45 with h | h
  · rw [wrapNode_under _ _ (by rw [ex5_calls]; omega), maskDebug_final]
    show (node_hitl_pause _).final_response = _
    rw [pause_final, bumpCalls_final, ex5_final,
      if_neg (show ¬(46 ≤ s0.meta.node_calls) by omega),
      if_neg (show ¬(45 ≤ s0.meta.node_calls) by omega)]
  · rw [wrapNode_over _ _ (by rw [ex5_calls]; omega), callLimitHit_final,
      if_pos (show 45 ≤ s0.meta.node_calls by omega)]

theorem ex4_draft (s0 : AppointmentState) (h : s0.meta.node_calls < 47) :
    (ex4 s0).state.draft_response = s0.draft_response := by
  rw [ex4_state, wrapNode_under _ _ (by rw [ex3_calls]; omega), maskDebug_draft, handle_draft,
    bumpCalls_draft, ex3_state, wrapNode_under _ _ (by rw [ex2_calls]; omega), maskDebug_draft,
    info_draft, bumpCalls_draft, ex2_state, wrapNode_under _ _ (by rw [ex1_calls]; omega),
    maskDebug_draft, safety_draft, bumpCalls_draft, ex1_state,
    wrapNode_under _ _ (by omega), maskDebug_draft, classify_draft, bumpCalls_draft]

theorem ex5_draft (s0 : AppointmentState) (h : s0.meta.node_calls < 46) :
    ∃ d, (ex5 s0).state.draft_response = some d ∧ d ≠ "" := by
  rw [ex5_state, wrapNode_under _ _ (by rw [ex4_calls]; omega), maskDebug_draft, draft_resp]
  exact ⟨_, rfl, draftText_ne_empty _⟩

/-- After the cli `finalize` stage the final response is always a non-empty
string: the governor's fallback, the reviewer's non-blank edit, or the draft
(which `node_generate_draft` always fills with non-empty text). -/
theorem ex7_goodFinal (dec : ReviewDecision) (s0 : AppointmentState) :
    ∃ m, (ex7 dec s0).state.final_response = some m ∧ m ≠ "" := by
  rcases Nat.lt_or_ge s0.meta.node_calls 44 with h | h
  · have h6 : ∃ m, (ex6 .cli dec s0).state.final_response = some m ∧ m ≠ "" := by
      rw [ex6_state, wrapNode_under _ _ (by rw [ex5_calls]; omega), maskDebug_final]
      have hrf := review_final dec (bumpCalls (ex5 s0).state)
      rw [show (hitlNode .cli dec) = node_human_review dec from rfl, hrf]
      obtain ⟨d, hd, hdne⟩ := ex5_draft s0 (by omega)
      cases dec with
      | approve =>
        dsimp only
        rw [bumpCalls_draft, hd]
        exact ⟨d, rfl, hdne⟩
      | edit t =>
        dsimp only
        by_cases ht : pyStrip t ≠ ""
        · rw [if_pos ht]
          exact ⟨pyStrip t, rfl, ht⟩
        · rw [if_neg ht, bumpCalls_draft, hd]
          exact ⟨d, rfl, hdne⟩
    obtain ⟨m, hm, hmne⟩ := h6
    refine ⟨m, ?_, hmne⟩
    rw [ex7_state, wrapNode_under _ _ (by rw [ex6_calls]; omega), maskDebug_final,
      finalize_final, bumpCalls_final, hm]
  · refine ⟨callLimitMsg, ?_, by simp [callLimitMsg]⟩
    rw [ex7_state, wrapNode_over _ _ (by rw [ex6_calls]; omega), callLimitHit_final]

theorem needInfoMsgFor_ne_empty (s : AppointmentState) : needInfoMsgFor s ≠ "" := by
  unfold needInfoMsgFor
  split
  · simp [needInfoRescheduleMsg]
  · split
    · simp [needInfoCancelMsg]
    · simp [needInfoGenericMsg]

/-- C6: for every run started with `terminal_status` unset, in either graph
mode, if the engine's normal exit returns a context whose `terminal_status`
is one of the terminal values, then `final_response` is a non-empty string. -/
theorem C6_terminal_final_nonempty (mode : GraphMode) (dec : ReviewDecision)
    (s0 : AppointmentState) (h0 : s0.terminal_status = none) (t : String)
    (ht : (runGraph mode dec s0).terminal_status = some t) (htv : t ∈ terminalValues) :
    ∃ m, (runGraph mode dec s0).final_response = some m ∧ m ≠ "" := by
  unfold runGraph at ht ⊢
  rw [runExec_eq] at ht ⊢
  by_cases h2 : ((ex2 s0).state.terminal_status == some "ESCALATE") = true
  · rw [if_pos h2] at ht ⊢
    rw [beq_iff_eq] at h2
    rw [ex2_terminal] at h2
    rw [ex2_final]
    by_cases hc : 49 ≤ s0.meta.node_calls
    · rw [if_pos hc]
      exact ⟨callLimitMsg, rfl, by simp [callLimitMsg]⟩
    · rw [if_neg hc] at h2 ⊢
      by_cases he : emergencyHit s0.user_input
      · rw [if_pos he]
        exact ⟨safetyEscalateMsg, rfl, by simp [safetyEscalateMsg]⟩
      · rw [if_neg he, h0] at h2
        exact absurd h2 (by simp)
  · rw [if_neg h2, runExecInfo_eq] at ht ⊢
    by_cases h3 : ((ex3 s0).state.terminal_status == some "NEED_INFO") = true
    · rw [if_pos h3] at ht ⊢
      rw [beq_iff_eq] at h3
      rw [ex3_terminal] at h3
      rw [ex3_final]
      by_cases hc : 48 ≤ s0.meta.node_calls
      · rw [if_pos hc] at h3
        exact absurd h3 (by simp)
      · rw [if_neg hc] at h3 ⊢
        by_cases hm : miss3 s0 ≠ []
        · rw [if_pos hm]
          exact ⟨needInfoMsgFor (bumpCalls (ex2 s0).state), rfl, needInfoMsgFor_ne_empty _⟩
        · rw [if_neg hm] at h3
          by_cases he : emergencyHit s0.user_input
          · rw [if_pos he] at h3
            exact absurd h3 (by simp)
          · rw [if_neg he, h0] at h3
            exact absurd h3 (by simp)
    · rw [if_neg h3] at ht ⊢
      cases mode
      · rw [runExecHitl_cli] at ht ⊢
        exact ex7_goodFinal dec s0
      · rw [runExecHitl_pause] at ht ⊢
        rw [ex6_pause_terminal] at ht
        rw [ex6_pause_final]
        by_cases hc : 45 ≤ s0.meta.node_calls
        · rw [if_pos hc]
          exact ⟨callLimitMsg, rfl, by simp [callLimitMsg]⟩
        · rw [if_neg hc] at ht ⊢
          by_cases hm : miss3 s0 ≠ []
          · rw [if_pos hm]
            exact ⟨needInfoMsgFor (bumpCalls (ex2 s0).state), rfl, needInfoMsgFor_ne_empty _⟩
          · rw [if_neg hm] at ht ⊢
            by_cases he : emergencyHit s0.user_input
            · rw [if_pos he]
              exact ⟨safetyEscalateMsg, rfl, by simp [safetyEscalateMsg]⟩
            · rw [if_neg he, h0] at ht
              exact absurd ht (by simp)

theorem C6_witness :
    (freshState "run-1" "chest pain").terminal_status = none ∧
    (runGraph .pause .approve (freshState "run-1" "chest pain")).terminal_status =
      some "ESCALATE" ∧
    "ESCALATE" ∈ terminalValues ∧
    ∃ m, (runGraph .pause .approve (freshState "run-1" "chest pain")).final_response = some m ∧
      m ≠ "" :=
  ⟨rfl, rfl, by simp [terminalValues],
   C6_terminal_final_nonempty .pause .approve (freshState "run-1" "chest pain") rfl
     "ESCALATE" rfl (by simp [terminalValues])⟩

/-- C7: for the input "chest pain, also need to reschedule", in either graph
mode and for any review decision, the safety step escalates and the run ends
right after it: `terminal_status` is `ESCALATE`, the trace is exactly the
classification entry followed by `safety_escalate`, no draft is produced,
and the only wrapped invocations are `classify_intent` and `safety_check`
(both bodies ran). -/
theorem C7_emergency_scenario (mode : GraphMode) (dec : ReviewDecision) :
    (runExec mode dec (freshState "run-1" "chest pain, also need to reschedule")).state.terminal_status = some "ESCALATE" ∧
    (runExec mode dec (freshState "run-1" "chest pain, also need to reschedule")).state.route_trace = ["classify_intent", "safety_escalate"] ∧
    (runExec mode dec (freshState "run-1" "chest pain, also need to reschedule")).state.draft_response = none ∧
    (runExec mode dec (freshState "run-1" "chest pain, also need to reschedule")).log.map ExecEntry.name = ["classify_intent", "safety_check"] ∧
    (runExec mode dec (freshState "run-1" "chest pain, also need to reschedule")).log.map ExecEntry.ran = [true, true] := by
  exact ⟨rfl, rfl, rfl, rfl, rfl⟩

set_option maxHeartbeats 4000000 in
/-- C8: for the input "cancel my appointment, id 1234" submitted through the
web flow (any appointment/insurance form values), the confirm handler's yes
branch resolves the intent to `CANCEL`, finds no missing information (the id
is present in the text), and renders the completion page with
`terminal_status = READY`, a final response announcing the successful
cancellation, and a trace containing the classification entry, the
cancellation-path entry `cancel_confirmed`, and the `finalize` entry. -/
theorem C8_cancel_scenario (apptId insId : String) :
    (confirmHandler
      (storePending emptyStore
        (build_base_state "run-1" "cancel my appointment, id 1234" apptId insId))
      "run-1" "yes").1 = .resultDone ∧
    ∃ s, (confirmHandler
      (storePending emptyStore
        (build_base_state "run-1" "cancel my appointment, id 1234" apptId insId))
      "run-1" "yes").2.1 = some s ∧
      s.intent = some "CANCEL" ∧
      s.missing_info = [] ∧
      s.terminal_status = some "READY" ∧
      s.final_response = some "Your appointment has been cancelled successfully. If you have any other medical needs, please book an appointment." ∧
      s.route_trace = ["classify_intent", "safety_ok", "info_complete", "handle_intent",
        "draft_generated", "hitl_pause", "cancel_confirmed", "finalize"] ∧
      "classify_intent" ∈ (["classify_intent", "safety_ok", "info_complete", "handle_intent",
        "draft_generated", "hitl_pause", "cancel_confirmed", "finalize"] : List String) ∧
      "cancel_confirmed" ∈ (["classify_intent", "safety_ok", "info_complete", "handle_intent",
        "draft_generated", "hitl_pause", "cancel_confirmed", "finalize"] : List String) ∧
      "finalize" ∈ (["classify_intent", "safety_ok", "info_complete", "handle_intent",
        "draft_generated", "hitl_pause", "cancel_confirmed", "finalize"] : List String) := by
  refine ⟨rfl, _, rfl, rfl, rfl, rfl, rfl, rfl, ?_, ?_, ?_⟩ <;> simp

/-- C9: the pause store obeys the claimed algebra: a store followed by a
retrieve of the same run id returns the stored context; a later store for
the same id overwrites the earlier one; a consume followed by a retrieve of
the same id yields a domain-level miss (`none`), not a crash. -/
theorem C9_pause_store (m : Store) (c1 c2 : AppointmentState) (id : String) :
    retrievePending (storePending m c2) c2.run_id = some c2 ∧
    (c1.run_id = c2.run_id → storePending (storePending m c1) c2 = storePending m c2) ∧
    retrievePending (consumePending m id) id = none := by
  refine ⟨?_, ?_, ?_⟩
  · unfold retrievePending storePending
    simp
  · intro h
    funext k
    unfold storePending
    by_cases hk : k = c2.run_id <;> simp [hk, h]
  · unfold retrievePending consumePending
    simp

def storeWitnessA : AppointmentState := freshState "rid-9" "hello"

def storeWitnessB : AppointmentState := freshState "rid-9" "world"

theorem C9_witness :
    storeWitnessA.run_id = storeWitnessB.run_id ∧
    retrievePending (storePending emptyStore storeWitnessB) storeWitnessB.run_id =
      some storeWitnessB ∧
    storePending (storePending emptyStore storeWitnessA) storeWitnessB =
      storePending emptyStore storeWitnessB ∧
    retrievePending (consumePending emptyStore "z") "z" = none :=
  ⟨rfl,
   (C9_pause_store emptyStore storeWitnessA storeWitnessB "z").1,
   (C9_pause_store emptyStore storeWitnessA storeWitnessB "z").2.1 rfl,
   (C9_pause_store emptyStore storeWitnessA storeWitnessB "z").2.2⟩

/-- Iterated wrapped invocations, counting how many times the wrapped node
body actually executed. -/
def iterWrap (f : AppointmentState → AppointmentState) :
    Nat → AppointmentState → Nat × AppointmentState
  | 0, s => (0, s)
  | n + 1, s =>
    let p := wrapNodeB f s
    let r := iterWrap f n p.2
    ((if p.1 then 1 else 0) + r.1, r.2)

theorem iterWrap_bound (f : AppointmentState → AppointmentState)
    (hf : ∀ t, (f t).meta.node_calls = t.meta.node_calls) :
    ∀ (n : Nat) (s : AppointmentState),
      (iterWrap f n s).1 + min s.meta.node_calls 50 ≤ 50 := by
  intro n
  induction n with
  | zero =>
    intro s
    simp only [iterWrap]
    omega
  | succ n ih =>
    intro s
    rcases Nat.lt_or_ge s.meta.node_calls 50 with h | h
    · have hb := wrapNodeB_under f s h
      have hcalls : (maskDebug (f (bumpCalls s))).meta.node_calls = s.meta.node_calls + 1 := by
        rw [maskDebug_calls, hf, bumpCalls_calls]
      have hih := ih (maskDebug (f (bumpCalls s)))
      rw [hcalls] at hih
      simp [iterWrap, hb]
      omega
    · have hb := wrapNodeB_over f s h
      have hcalls : (callLimitHit (bumpCalls s)).meta.node_calls = s.meta.node_calls + 1 := by
        rw [callLimitHit_meta, bumpCalls_calls]
      have hih := ih (callLimitHit (bumpCalls s))
      rw [hcalls] at hih
      simp [iterWrap, hb]
      omega

/-- C2: with the ceiling 50 configured by `build_graph`, (i) on any wrapped
invocation whose incremented per-run counter exceeds the ceiling, the
Call-Limit Governor returns the fixed escalation state without invoking the
inner (retry∘redaction∘step) pipeline at all — the result is independent of
the wrapped step, carries `terminal_status = ESCALATE`, the fixed
safe-fallback final response and a `call_limit_exceeded` trace entry, and
leaves `meta["debug"]` untouched (the redaction middleware was skipped, not
run); and (ii) across any number of wrapped invocations of a step that does
not itself touch the counter, the step body executes at most 50 times. -/
theorem C2_call_limit_governor (fn : FStep) (s : AppointmentState)
    (hover : 50 < s.meta.node_calls + 1)
    (f : AppointmentState → AppointmentState)
    (hf : ∀ t, (f t).meta.node_calls = t.meta.node_calls)
    (n : Nat) (s' : AppointmentState) :
    wrapFull fn s = .ok (callLimitHit (bumpCalls s)) ∧
    (∀ fn' : FStep, wrapFull fn' s = wrapFull fn s) ∧
    (callLimitHit (bumpCalls s)).terminal_status = some "ESCALATE" ∧
    (callLimitHit (bumpCalls s)).final_response = some callLimitMsg ∧
    (callLimitHit (bumpCalls s)).route_trace = s.route_trace ++ ["call_limit_exceeded"] ∧
    (callLimitHit (bumpCalls s)).meta.debug = s.meta.debug ∧
    (iterWrap f n s').1 ≤ 50 := by
  have hshort : ∀ g : FStep, wrapFull g s = .ok (callLimitHit (bumpCalls s)) := by
    intro g
    unfold wrapFull apply_middleware middlewareStack
    simp only [List.reverse_cons, List.reverse_nil, List.nil_append, List.cons_append,
      List.foldl_cons, List.foldl_nil]
    unfold callLimitMW
    rw [if_pos (by rw [bumpCalls_calls]; omega)]
  refine ⟨hshort fn, fun fn' => (hshort fn').trans (hshort fn).symm, rfl, rfl, rfl, rfl, ?_⟩
  have := iterWrap_bound f hf n s'
  omega

def overState : AppointmentState :=
  { freshState "w" "x" with meta := { (freshState "w" "x").meta with node_calls := 57 } }

theorem C2_witness :
    (50 < overState.meta.node_calls + 1) ∧
    wrapFull (liftStep node_finalize) overState =
      .ok (callLimitHit (bumpCalls overState)) ∧
    (iterWrap node_finalize 3 (freshState "w" "x")).1 ≤ 50 :=
  ⟨by decide,
   (C2_call_limit_governor (liftStep node_finalize) overState (by decide) node_finalize
      finalize_calls 3 (freshState "w" "x")).1,
   (C2_call_limit_governor (liftStep node_finalize) overState (by decide) node_finalize
      finalize_calls 3 (freshState "w" "x")).2.2.2.2.2.2⟩

theorem retryLoopAux_count (base : ℚ) (att : Nat → StepResult) (s : AppointmentState) :
    ∀ (rem i : Nat) (lastE : Option String) (slept : List ℚ),
      (retryLoopAux base att s lastE slept i rem).2.1 ≤ i + rem := by
  intro rem
  induction rem with
  | zero =>
    intro i lastE slept
    simp [retryLoopAux]
  | succ rem ih =>
    intro i lastE slept
    simp only [retryLoopAux]
    cases att i with
    | ok out => simp
    | err e =>
      have := ih (i + 1) (some e) (slept ++ [base * 2 ^ i])
      simp only
      omega

theorem sleepChain (base : ℚ) (i fc : Nat) :
    [base * 2 ^ i] ++ (List.range fc).map (fun k => base * 2 ^ (i + 1 + k)) =
      (List.range (fc + 1)).map (fun k => base * 2 ^ (i + k)) := by
  have h1 : (List.range (fc + 1)).map (fun k => base * 2 ^ (i + k)) =
      base * 2 ^ (i + 0) :: (List.range fc).map (fun k => base * 2 ^ (i + (k + 1))) := by
    rw [List.range_succ_eq_map, List.map_cons, List.map_map]
    rfl
  rw [h1]
  simp only [Nat.add_zero, List.singleton_append]
  congr 1
  apply List.map_congr_left
  intro a _
  have h2 : i + 1 + a = i + (a + 1) := by omega
  rw [h2]

theorem retryLoopAux_slept (base : ℚ) (att : Nat → StepResult) (s : AppointmentState) :
    ∀ (rem i : Nat) (lastE : Option String) (slept : List ℚ),
      ∃ fc, fc ≤ rem ∧
        (retryLoopAux base att s lastE slept i rem).2.2 =
          slept ++ (List.range fc).map (fun k => base * 2 ^ (i + k)) := by
  intro rem
  induction rem with
  | zero =>
    intro i lastE slept
    exact ⟨0, le_refl 0, by simp [retryLoopAux]⟩
  | succ rem ih =>
    intro i lastE slept
    simp only [retryLoopAux]
    cases att i with
    | ok out => exact ⟨0, by omega, by simp⟩
    | err e =>
      obtain ⟨fc, hfc, hsl⟩ := ih (i + 1) (some e) (slept ++ [base * 2 ^ i])
      refine ⟨fc + 1, by omega, ?_⟩
      simp only at hsl ⊢
      rw [hsl, List.append_assoc, sleepChain]

theorem retryLoopAux_allfail (base : ℚ) (att : Nat → StepResult) (s : AppointmentState)
    (names : Nat → String) :
    ∀ (rem i : Nat) (lastE : Option String) (slept : List ℚ),
      0 < rem →
      (∀ j, i ≤ j → j < i + rem → att j = .err (names j)) →
      retryLoopAux base att s lastE slept i rem =
        (retryEscalate (some (names (i + rem - 1))) s, i + rem,
          slept ++ (List.range rem).map (fun k => base * 2 ^ (i + k))) := by
  intro rem
  induction rem with
  | zero => intro i lastE slept h0; omega
  | succ rem ih =>
    intro i lastE slept h0 hfail
    simp only [retryLoopAux]
    rw [hfail i (le_refl i) (by omega)]
    dsimp only
    rcases Nat.eq_zero_or_pos rem with hr | hr
    · subst hr
      simp only [retryLoopAux]
      rw [← sleepChain base i 0]
      simp
    · rw [ih (i + 1) (some (names i)) (slept ++ [base * 2 ^ i]) hr
        (fun j hj1 hj2 => hfail j (by omega) (by omega))]
      rw [List.append_assoc, sleepChain]
      have harith1 : i + 1 + rem - 1 = i + (rem + 1) - 1 := by omega
      have harith2 : i + 1 + rem = i + (rem + 1) := by omega
      rw [harith1, harith2]

/-- C3: for any retry count, backoff base, per-attempt step behaviour and
input context, `RetryMiddleware`'s loop (i) invokes the wrapped step at most
`retries + 1` times (with the `retries=1` configured by `build_graph`, at
most 2 attempts), (ii) sleeps `base * 2 ^ attempt` after the `attempt`-th
failure, in order, (iii) if every attempt raises, propagates no exception:
it returns the input context marked `terminal_status = ESCALATE` with the
fixed safe-fallback final response and a trace entry naming the failure
kind, after exactly `retries + 1` invocations; and (iv) the wrapped step it
exposes to the engine always returns a context, never a failure. -/
theorem C3_retry_middleware (retries : Nat) (base : ℚ) (att : Nat → StepResult)
    (s : AppointmentState) (names : Nat → String)
    (hfail : ∀ i, i ≤ retries → att i = .err (names i)) :
    (retryLoop retries base att s).2.1 ≤ retries + 1 ∧
    (retryLoop retries base att s).2.2 =
      (List.range (retryLoop retries base att s).2.2.length).map
        (fun k => base * 2 ^ k) ∧
    (retryLoop retries base att s).1 =
      { s with terminal_status := some "ESCALATE",
               final_response := some retryFailMsg,
               route_trace := s.route_trace ++ ["node_error:" ++ names retries] } ∧
    (retryLoop retries base att s).2.1 = retries + 1 ∧
    (∀ (fn : FStep) (t : AppointmentState), ∃ out, retryMW retries base fn t = .ok out) := by
  have hall := retryLoopAux_allfail base att s names (retries + 1) 0 none [] (by omega)
    (fun j hj1 hj2 => hfail j (by omega))
  unfold retryLoop
  rw [hall]
  refine ⟨by simp, ?_, ?_, by simp, fun fn t => ⟨_, rfl⟩⟩
  · simp only [List.nil_append, List.length_map, List.length_range]
    congr 1
    funext k
    simp
  · unfold retryEscalate excNameOf
    simp

theorem C3_witness :
    (retryLoop 1 (1 / 5 : ℚ) (fun _ => .err "ValueError") (freshState "w" "x")).2.1 ≤ 1 + 1 ∧
    (retryLoop 1 (1 / 5 : ℚ) (fun _ => .err "ValueError") (freshState "w" "x")).1 =
      { freshState "w" "x" with
        terminal_status := some "ESCALATE",
        final_response := some retryFailMsg,
        route_trace := (freshState "w" "x").route_trace ++ ["node_error:" ++ "ValueError"] } ∧
    (retryLoop 1 (1 / 5 : ℚ) (fun _ => .err "ValueError") (freshState "w" "x")).2.1 = 1 + 1 :=
  ⟨(C3_retry_middleware 1 (1 / 5) (fun _ => .err "ValueError") (freshState "w" "x")
      (fun _ => "ValueError") (fun _ _ => rfl)).1,
   (C3_retry_middleware 1 (1 / 5) (fun _ => .err "ValueError") (freshState "w" "x")
      (fun _ => "ValueError") (fun _ _ => rfl)).2.2.1,
   (C3_retry_middleware 1 (1 / 5) (fun _ => .err "ValueError") (freshState "w" "x")
      (fun _ => "ValueError") (fun _ _ => rfl)).2.2.2.1⟩

theorem wrapNodeB_fst (f : AppointmentState → AppointmentState) (s : AppointmentState) :
    (wrapNodeB f s).1 = decide (s.meta.node_calls < 50) := by
  rcases Nat.lt_or_ge s.meta.node_calls 50 with h | h
  · rw [wrapNodeB_under f s h]
    simp [h]
  · rw [wrapNodeB_over f s h]
    simp
    omega

theorem ex1_log (s0 : AppointmentState) :
    (ex1 s0).log =
      [{ name := "classify_intent", ran := decide (s0.meta.node_calls < 50),
         post := (ex1 s0).state }] := by
  unfold ex1
  rw [stepExec_log]
  simp only [List.nil_append]
  rw [wrapNodeB_fst]
  rfl

theorem ex2_log (s0 : AppointmentState) :
    (ex2 s0).log =
      [{ name := "classify_intent", ran := decide (s0.meta.node_calls < 50),
         post := (ex1 s0).state },
       { name := "safety_check", ran := decide (s0.meta.node_calls + 1 < 50),
         post := (ex2 s0).state }] := by
  unfold ex2
  rw [stepExec_log, ex1_log, wrapNodeB_fst, ex1_calls]
  rfl

theorem ex3_log (s0 : AppointmentState) :
    (ex3 s0).log =
      [{ name := "classify_intent", ran := decide (s0.meta.node_calls < 50),
         post := (ex1 s0).state },
       { name := "safety_check", ran := decide (s0.meta.node_calls + 1 < 50),
         post := (ex2 s0).state },
       { name := "info_check", ran := decide (s0.meta.node_calls + 2 < 50),
         post := (ex3 s0).state }] := by
  unfold ex3
  rw [stepExec_log, ex2_log, wrapNodeB_fst, ex2_calls]
  rfl

theorem ex4_log (s0 : AppointmentState) :
    (ex4 s0).log =
      [{ name := "classify_intent", ran := decide (s0.meta.node_calls < 50),
         post := (ex1 s0).state },
       { name := "safety_check", ran := decide (s0.meta.node_calls + 1 < 50),
         post := (ex2 s0).state },
       { name := "info_check", ran := decide (s0.meta.node_calls + 2 < 50),
         post := (ex3 s0).state },
       { name := "handle_intent", ran := decide (s0.meta.node_calls + 3 < 50),
         post := (ex4 s0).state }] := by
  unfold ex4
  rw [stepExec_log, ex3_log, wrapNodeB_fst, ex3_calls]
  rfl

theorem ex5_log (s0 : AppointmentState) :
    (ex5 s0).log =
      [{ name := "classify_intent", ran := decide (s0.meta.node_calls < 50),
         post := (ex1 s0).state },
       { name := "safety_check", ran := decide (s0.meta.node_calls + 1 < 50),
         post := (ex2 s0).state },
       { name := "info_check", ran := decide (s0.meta.node_calls + 2 < 50),
         post := (ex3 s0).state },
       { name := "handle_intent", ran := decide (s0.meta.node_calls + 3 < 50),
         post := (ex4 s0).state },
       { name := "draft", ran := decide (s0.meta.node_calls + 4 < 50),
         post := (ex5 s0).state }] := by
  unfold ex5
  rw [stepExec_log, ex4_log, wrapNodeB_fst, ex4_calls]
  rfl

theorem ex6_log (mode : GraphMode) (dec : ReviewDecision) (s0 : AppointmentState) :
    (ex6 mode dec s0).log =
      [{ name := "classify_intent", ran := decide (s0.meta.node_calls < 50),
         post := (ex1 s0).state },
       { name := "safety_check", ran := decide (s0.meta.node_calls + 1 < 50),
         post := (ex2 s0).state },
       { name := "info_check", ran := decide (s0.meta.node_calls + 2 < 50),
         post := (ex3 s0).state },
       { name := "handle_intent", ran := decide (s0.meta.node_calls + 3 < 50),
         post := (ex4 s0).state },
       { name := "draft", ran := decide (s0.meta.node_calls + 4 < 50),
         post := (ex5 s0).state },
       { name := "hitl", ran := decide (s0.meta.node_calls + 5 < 50),
         post := (ex6 mode dec s0).state }] := by
  unfold ex6
  rw [stepExec_log, ex5_log, wrapNodeB_fst, ex5_calls,
    ← stepExec_state "hitl" (hitlNode mode dec) (ex5 s0)]
  rfl

theorem ex7_log (dec : ReviewDecision) (s0 : AppointmentState) :
    (ex7 dec s0).log =
      [{ name := "classify_intent", ran := decide (s0.meta.node_calls < 50),
         post := (ex1 s0).state },
       { name := "safety_check", ran := decide (s0.meta.node_calls + 1 < 50),
         post := (ex2 s0).state },
       { name := "info_check", ran := decide (s0.meta.node_calls + 2 < 50),
         post := (ex3 s0).state },
       { name := "handle_intent", ran := decide (s0.meta.node_calls + 3 < 50),
         post := (ex4 s0).state },
       { name := "draft", ran := decide (s0.meta.node_calls + 4 < 50),
         post := (ex5 s0).state },
       { name := "hitl", ran := decide (s0.meta.node_calls + 5 < 50),
         post := (ex6 .cli dec s0).state },
       { name := "finalize", ran := decide (s0.meta.node_calls + 6 < 50),
         post := (ex7 dec s0).state }] := by
  unfold ex7
  rw [stepExec_log, ex6_log, wrapNodeB_fst, ex6_calls,
    ← stepExec_state "finalize" node_finalize (ex6 .cli dec s0)]
  rfl

/-- A terminal status that forbids further content-producing steps. -/
def badTerminal (s : AppointmentState) : Prop :=
  s.terminal_status = some "ESCALATE" ∨ s.terminal_status = some "NEED_INFO"

theorem ranFalse {a : Nat} (h : 50 ≤ a) : decide (a < 50) = false := by
  simp
  omega

/-- C4: in every run started with `terminal_status` unset, in either graph
mode, once some wrapped invocation leaves the context with `terminal_status`
`ESCALATE` or `NEED_INFO`, no later wrapped invocation executes its node
body: every later log entry has `ran = false` (only the call-limit
governor's short-circuit bookkeeping touches the context). -/
theorem C4_no_step_after_terminal (mode : GraphMode) (dec : ReviewDecision)
    (s0 : AppointmentState) (h0 : s0.terminal_status = none) :
    (runExec mode dec s0).log.Pairwise
      (fun a b => badTerminal a.post → b.ran = false) := by
  have hb1 : badTerminal (ex1 s0).state → 50 ≤ s0.meta.node_calls := by
    intro hb
    unfold badTerminal at hb
    rw [ex1_terminal] at hb
    by_cases hc : 50 ≤ s0.meta.node_calls
    · exact hc
    · rw [if_neg hc, h0] at hb
      rcases hb with h | h <;> exact absurd h (by simp)
  rw [runExec_eq]
  by_cases h2 : ((ex2 s0).state.terminal_status == some "ESCALATE") = true
  · rw [if_pos h2, ex2_log]
    refine List.Pairwise.cons ?_ (List.Pairwise.cons (by simp) List.Pairwise.nil)
    intro b hb hbad
    dsimp only at hbad
    have hc := hb1 hbad
    simp only [List.mem_cons, List.not_mem_nil, or_false] at hb
    rcases hb with rfl
    exact ranFalse (by omega)
  · rw [if_neg h2, runExecInfo_eq]
    rw [beq_iff_eq] at h2
    have hc49 : s0.meta.node_calls < 49 := by
      by_cases hc : 49 ≤ s0.meta.node_calls
      · exact absurd (by rw [ex2_terminal, if_pos hc]) h2
      · omega
    have hem : emergencyHit s0.user_input = false := by
      by_cases he : emergencyHit s0.user_input
      · exact absurd (by rw [ex2_terminal, if_neg (by omega), if_pos he]) h2
      · simpa using he
    have hb2 : badTerminal (ex2 s0).state → False := by
      intro hb
      unfold badTerminal at hb
      rw [ex2_terminal, if_neg (by omega), hem] at hb
      simp only [Bool.false_eq_true, if_false, h0] at hb
      rcases hb with h | h <;> exact absurd h (by simp)
    by_cases h3 : ((ex3 s0).state.terminal_status == some "NEED_INFO") = true
    · rw [if_pos h3, ex3_log]
      refine List.Pairwise.cons ?_
        (List.Pairwise.cons ?_ (List.Pairwise.cons (by simp) List.Pairwise.nil))
      · intro b hb hbad
        dsimp only at hbad
        have hc := hb1 hbad
        simp only [List.mem_cons, List.not_mem_nil, or_false] at hb
        rcases hb with rfl | rfl <;> exact ranFalse (by omega)
      · intro b hb hbad
        dsimp only at hbad
        exact (hb2 hbad).elim
    · rw [if_neg h3]
      rw [beq_iff_eq] at h3
      have hmiss : ¬(48 ≤ s0.meta.node_calls) → miss3 s0 = [] := by
        intro hc
        by_cases hm : miss3 s0 = []
        · exact hm
        · exact absurd (by rw [ex3_terminal, if_neg hc, if_pos hm]) h3
      have tailNone : ∀ k : Nat, ¬(k ≤ s0.meta.node_calls) → k ≤ 48 →
          (if k ≤ s0.meta.node_calls then some "ESCALATE"
           else if miss3 s0 ≠ [] then some "NEED_INFO"
           else if emergencyHit s0.user_input then some "ESCALATE"
           else s0.terminal_status) = none := by
        intro k hk hk48
        rw [if_neg hk, hmiss (by omega)]
        simp only [ne_eq, not_true_eq_false, if_false, hem, Bool.false_eq_true, h0]
      have hb3 : badTerminal (ex3 s0).state → 48 ≤ s0.meta.node_calls := by
        intro hb
        unfold badTerminal at hb
        rw [ex3_terminal] at hb
        by_cases hc : 48 ≤ s0.meta.node_calls
        · exact hc
        · rw [tailNone 48 hc (by omega)] at hb
          rcases hb with h | h <;> exact absurd h (by simp)
      have hb4 : badTerminal (ex4 s0).state → 47 ≤ s0.meta.node_calls := by
        intro hb
        unfold badTerminal at hb
        rw [ex4_terminal] at hb
        by_cases hc : 47 ≤ s0.meta.node_calls
        · exact hc
        · rw [tailNone 47 hc (by omega)] at hb
          rcases hb with h | h <;> exact absurd h (by simp)
      have hb5 : badTerminal (ex5 s0).state → 46 ≤ s0.meta.node_calls := by
        intro hb
        unfold badTerminal at hb
        rw [ex5_terminal] at hb
        by_cases hc : 46 ≤ s0.meta.node_calls
        · exact hc
        · rw [tailNone 46 hc (by omega)] at hb
          rcases hb with h | h <;> exact absurd h (by simp)
      cases mode
      · rw [runExecHitl_cli, ex7_log]
        have hb6 : badTerminal (ex6 .cli dec s0).state → 45 ≤ s0.meta.node_calls := by
          intro hb
          unfold badTerminal at hb
          rw [ex6_cli_terminal] at hb
          by_cases hc : 45 ≤ s0.meta.node_calls
          · exact hc
          · rw [if_neg hc] at hb
            rcases hb with h | h <;> exact absurd h (by simp)
        refine List.Pairwise.cons ?_ (List.Pairwise.cons ?_ (List.Pairwise.cons ?_
          (List.Pairwise.cons ?_ (List.Pairwise.cons ?_ (List.Pairwise.cons ?_
          (List.Pairwise.cons (by simp) List.Pairwise.nil))))))
        · intro b hb hbad
          dsimp only at hbad
          have hc := hb1 hbad
          simp only [List.mem_cons, List.not_mem_nil, or_false] at hb
          rcases hb with rfl | rfl | rfl | rfl | rfl | rfl <;> exact ranFalse (by omega)
        · intro b hb hbad
          dsimp only at hbad
          exact (hb2 hbad).elim
        · intro b hb hbad
          dsimp only at hbad
          have hc := hb3 hbad
          simp only [List.mem_cons, List.not_mem_nil, or_false] at hb
          rcases hb with rfl | rfl | rfl | rfl <;> exact ranFalse (by omega)
        · intro b hb hbad
          dsimp only at hbad
          have hc := hb4 hbad
          simp only [List.mem_cons, List.not_mem_nil, or_false] at hb
          rcases hb with rfl | rfl | rfl <;> exact ranFalse (by omega)
        · intro b hb hbad
          dsimp only at hbad
          have hc := hb5 hbad
          simp only [List.mem_cons, List.not_mem_nil, or_false] at hb
          rcases hb with rfl | rfl <;> exact ranFalse (by omega)
        · intro b hb hbad
          dsimp only at hbad
          have hc := hb6 hbad
          simp only [List.mem_cons, List.not_mem_nil, or_false] at hb
          rcases hb with rfl
          exact ranFalse (by omega)
      · rw [runExecHitl_pause, ex6_log]
        refine List.Pairwise.cons ?_ (List.Pairwise.cons ?_ (List.Pairwise.cons ?_
          (List.Pairwise.cons ?_ (List.Pairwise.cons ?_
          (List.Pairwise.cons (by simp) List.Pairwise.nil)))))
        · intro b hb hbad
          dsimp only at hbad
          have hc := hb1 hbad
          simp only [List.mem_cons, List.not_mem_nil, or_false] at hb
          rcases hb with rfl | rfl | rfl | rfl | rfl <;> exact ranFalse (by omega)
        · intro b hb hbad
          dsimp only at hbad
          exact (hb2 hbad).elim
        · intro b hb hbad
          dsimp only at hbad
          have hc := hb3 hbad
          simp only [List.mem_cons, List.not_mem_nil, or_false] at hb
          rcases hb with rfl | rfl | rfl <;> exact ranFalse (by omega)
        · intro b hb hbad
          dsimp only at hbad
          have hc := hb4 hbad
          simp only [List.mem_cons, List.not_mem_nil, or_false] at hb
          rcases hb with rfl | rfl <;> exact ranFalse (by omega)
        · intro b hb hbad
          dsimp only at hbad
          have hc := hb5 hbad
          simp only [List.mem_cons, List.not_mem_nil, or_false] at hb
          rcases hb with rfl
          exact ranFalse (by omega)

theorem C4_witness :
    (freshState "run-1" "chest pain").terminal_status = none ∧
    (runExec .cli .approve (freshState "run-1" "chest pain")).log.Pairwise
      (fun a b => badTerminal a.post → b.ran = false) :=
  ⟨rfl, C4_no_step_after_terminal .cli .approve (freshState "run-1" "chest pain") rfl⟩

theorem callLimitHit_bump_trace (s : AppointmentState) :
    (callLimitHit (bumpCalls s)).route_trace = s.route_trace ++ ["call_limit_exceeded"] := rfl

theorem wrapNode_trace (f : AppointmentState → AppointmentState) (s : AppointmentState)
    (hf : ∀ t, ∃ ts, ts ≠ [] ∧ (f t).route_trace = t.route_trace ++ ts) :
    ∃ ts, ts ≠ [] ∧ (wrapNode f s).route_trace = s.route_trace ++ ts := by
  rcases Nat.lt_or_ge s.meta.node_calls 50 with h | h
  · obtain ⟨ts, hne, hts⟩ := hf (bumpCalls s)
    refine ⟨ts, hne, ?_⟩
    rw [wrapNode_under f s h, maskDebug_trace, hts, bumpCalls_trace]
  · refine ⟨["call_limit_exceeded"], by simp, ?_⟩
    rw [wrapNode_over f s h, callLimitHit_bump_trace]

theorem classifyAppends (t : AppointmentState) :
    ∃ ts, ts ≠ [] ∧ (node_classify_intent t).route_trace = t.route_trace ++ ts :=
  ⟨["classify_intent"], by simp, classify_trace t⟩

theorem safetyAppends (t : AppointmentState) :
    ∃ ts, ts ≠ [] ∧ (node_safety_check t).route_trace = t.route_trace ++ ts :=
  ⟨[if emergencyHit t.user_input then "safety_escalate" else "safety_ok"], by simp,
   safety_trace t⟩

theorem infoAppends (t : AppointmentState) :
    ∃ ts, ts ≠ [] ∧ (node_check_missing_info t).route_trace = t.route_trace ++ ts :=
  ⟨[if infoMissing t = [] then "info_complete" else "need_info"], by simp, info_trace t⟩

theorem handleAppends (t : AppointmentState) :
    ∃ ts, ts ≠ [] ∧ (node_handle_intent t).route_trace = t.route_trace ++ ts :=
  ⟨["handle_intent"], by simp, handle_trace t⟩

theorem draftAppends (t : AppointmentState) :
    ∃ ts, ts ≠ [] ∧ (node_generate_draft t).route_trace = t.route_trace ++ ts :=
  ⟨["draft_generated"], by simp, draft_trace t⟩

theorem hitlAppends (mode : GraphMode) (dec : ReviewDecision) (t : AppointmentState) :
    ∃ ts, ts ≠ [] ∧ (hitlNode mode dec t).route_trace = t.route_trace ++ ts := by
  cases mode
  · exact ⟨reviewTraceTokens dec, by cases dec <;> simp [reviewTraceTokens], review_trace dec t⟩
  · exact ⟨["hitl_pause"], by simp, pause_trace t⟩

theorem finalizeAppends (t : AppointmentState) :
    ∃ ts, ts ≠ [] ∧ (node_finalize t).route_trace = t.route_trace ++ ts :=
  ⟨["finalize"], by simp, finalize_trace t⟩

/-- C5 (amended): along every run, in either graph mode, the route trace
only grows: each wrapped invocation appends at least one entry, so the trace
of each successive logged state extends the previous one (append-only and in
execution order). -/
theorem C5_trace_monotone_amended (mode : GraphMode) (dec : ReviewDecision)
    (s0 : AppointmentState) :
    List.Chain' (fun a b => ∃ ts, ts ≠ [] ∧ b = a ++ ts)
      (s0.route_trace :: (runExec mode dec s0).log.map (fun e => e.post.route_trace)) := by
  have t1 : ∃ ts, ts ≠ [] ∧ (ex1 s0).state.route_trace = s0.route_trace ++ ts := by
    rw [ex1_state]
    exact wrapNode_trace _ _ classifyAppends
  have t2 : ∃ ts, ts ≠ [] ∧
      (ex2 s0).state.route_trace = (ex1 s0).state.route_trace ++ ts := by
    rw [ex2_state]
    exact wrapNode_trace _ _ safetyAppends
  have t3 : ∃ ts, ts ≠ [] ∧
      (ex3 s0).state.route_trace = (ex2 s0).state.route_trace ++ ts := by
    rw [ex3_state]
    exact wrapNode_trace _ _ infoAppends
  have t4 : ∃ ts, ts ≠ [] ∧
      (ex4 s0).state.route_trace = (ex3 s0).state.route_trace ++ ts := by
    rw [ex4_state]
    exact wrapNode_trace _ _ handleAppends
  have t5 : ∃ ts, ts ≠ [] ∧
      (ex5 s0).state.route_trace = (ex4 s0).state.route_trace ++ ts := by
    rw [ex5_state]
    exact wrapNode_trace _ _ draftAppends
  have t6 : ∃ ts, ts ≠ [] ∧
      (ex6 mode dec s0).state.route_trace = (ex5 s0).state.route_trace ++ ts := by
    rw [ex6_state]
    exact wrapNode_trace _ _ (hitlAppends mode dec)
  rw [runExec_eq]
  by_cases h2 : ((ex2 s0).state.terminal_status == some "ESCALATE") = true
  · rw [if_pos h2, ex2_log]
    simp only [List.map_cons, List.map_nil]
    exact List.Chain'.cons t1 (List.Chain'.cons t2 (List.chain'_singleton _))
  · rw [if_neg h2, runExecInfo_eq]
    by_cases h3 : ((ex3 s0).state.terminal_status == some "NEED_INFO") = true
    · rw [if_pos h3, ex3_log]
      simp only [List.map_cons, List.map_nil]
      exact List.Chain'.cons t1 (List.Chain'.cons t2 (List.Chain'.cons t3
        (List.chain'_singleton _)))
    · rw [if_neg h3]
      cases mode
      · rw [runExecHitl_cli, ex7_log]
        have t7 : ∃ ts, ts ≠ [] ∧
            (ex7 dec s0).state.route_trace = (ex6 .cli dec s0).state.route_trace ++ ts := by
          rw [ex7_state]
          exact wrapNode_trace _ _ finalizeAppends
        simp only [List.map_cons, List.map_nil]
        exact List.Chain'.cons t1 (List.Chain'.cons t2 (List.Chain'.cons t3
          (List.Chain'.cons t4 (List.Chain'.cons t5 (List.Chain'.cons t6
            (List.Chain'.cons t7 (List.chain'_singleton _)))))))
      · rw [runExecHitl_pause, ex6_log]
        simp only [List.map_cons, List.map_nil]
        exact List.Chain'.cons t1 (List.Chain'.cons t2 (List.Chain'.cons t3
          (List.Chain'.cons t4 (List.Chain'.cons t5 (List.Chain'.cons t6
            (List.chain'_singleton _))))))

/-- C5 counterexample: on the run for input "hello" the `safety_check` node
body executes (its log entry has `ran = true`), yet the string
"safety_check" never appears in the final route trace — the executed step's
trace entry is the event name `safety_ok`, not the graph node name, so the
trace does not contain "the name of every step actually executed". -/
theorem C5_counterexample :
    (∃ e ∈ (runExec .cli .approve (freshState "run-1" "hello")).log,
        e.name = "safety_check" ∧ e.ran = true) ∧
    "safety_check" ∉ (runExec .cli .approve (freshState "run-1" "hello")).state.route_trace ∧
    "safety_ok" ∈ (runExec .cli .approve (freshState "run-1" "hello")).state.route_trace := by
  refine ⟨?_, ?_, ?_⟩ <;> decide

theorem digit_word (c : Char) (h : c.isDigit = true) : isWordChar c = true := by
  unfold isWordChar Char.isAlphanum
  simp [h]

theorem head?_drop' {α : Type} : ∀ (l : List α) (k : Nat), (l.drop k).head? = l.get? k := by
  intro l
  induction l with
  | nil => intro k; cases k <;> simp
  | cons c t ih =>
    intro k
    cases k with
    | zero => simp
    | succ k => simpa using ih k

theorem takeWhile_eq_take (p : Char → Bool) (l : List Char) :
    l.takeWhile p = l.take (l.takeWhile p).length :=
  List.prefix_iff_eq_take.mp (List.takeWhile_prefix p)

theorem get?_digit_of_lt (l : List Char) (j : Nat) (hj : j < (l.takeWhile Char.isDigit).length) :
    ∃ c, l.get? j = some c ∧ c.isDigit = true := by
  have h1 : l.get? j = (l.takeWhile Char.isDigit).get? j := by
    rw [takeWhile_eq_take Char.isDigit l]
    exact (List.get?_take hj).symm
  have h2 : ∃ c, (l.takeWhile Char.isDigit).get? j = some c := by
    cases hg : (l.takeWhile Char.isDigit).get? j with
    | none =>
      rw [List.get?_eq_none] at hg
      omega
    | some c => exact ⟨c, rfl⟩
  obtain ⟨c, hc⟩ := h2
  refine ⟨c, by rw [h1, hc], ?_⟩
  exact List.mem_takeWhile_imp (List.get?_mem hc)

theorem matchDigitRun_nil (prev : Option Char) : matchDigitRun prev [] = none := by
  unfold matchDigitRun greedySplits
  split <;> simp [firstSome]

/-- A successful `\b(\d{3,})\b` attempt always consumes exactly the maximal
digit run (shorter greedy candidates fail the trailing `\b` against the next
digit). -/
theorem matchDigitRun_some (prev : Option Char) (l run rest : List Char)
    (h : matchDigitRun prev l = some (run, rest)) :
    run = l.takeWhile Char.isDigit ∧ rest = l.dropWhile Char.isDigit ∧
    3 ≤ run.length ∧ boundaryOk prev l.head? = true ∧ isWordOpt rest.head? = false := by
  unfold matchDigitRun at h
  split at h
  · rename_i hbd
    obtain ⟨x, hx, hfx⟩ := firstSome_eq_some_mem h
    have hxr : x = (run, rest) := by
      by_cases hb : boundaryOk x.1.getLast? x.2.head? = true
      · simpa [hb] using hfx
      · simp [hb] at hfx
    have hbx : boundaryOk x.1.getLast? x.2.head? = true := by
      by_cases hb : boundaryOk x.1.getLast? x.2.head? = true
      · exact hb
      · simp [hb] at hfx
    simp only [greedySplits] at hx
    split at hx
    · simp at hx
    · rename_i hn
      simp only [List.mem_map, List.mem_range] at hx
      obtain ⟨i, hi, hxeq⟩ := hx
      set n := (l.takeWhile Char.isDigit).length with hn_def
      have hnl : n ≤ l.length := (List.takeWhile_prefix (l := l) Char.isDigit).length_le
      have hi0 : i = 0 := by
        by_contra hi0
        have hipos : 1 ≤ i := by omega
        have hlast : ∃ c, (l.take (n - i)).getLast? = some c ∧ c.isDigit = true := by
          have hlen : (l.take (n - i)).length = n - i := by
            rw [List.length_take]
            omega
          obtain ⟨c, hc, hcd⟩ := get?_digit_of_lt l (n - i - 1) (by omega)
          refine ⟨c, ?_, hcd⟩
          rw [List.getLast?_eq_get?, hlen, List.get?_take (by omega)]
          exact hc
        have hhead : ∃ c, (l.drop (n - i)).head? = some c ∧ c.isDigit = true := by
          obtain ⟨c, hc, hcd⟩ := get?_digit_of_lt l (n - i) (by omega)
          exact ⟨c, by rw [head?_drop']; exact hc, hcd⟩
        obtain ⟨c1, hc1, hd1⟩ := hlast
        obtain ⟨c2, hc2, hd2⟩ := hhead
        rw [← hxeq] at hbx
        simp only at hbx
        rw [hc1, hc2] at hbx
        unfold boundaryOk at hbx
        have hb1 : isWordOpt (some c1) = true := digit_word c1 hd1
        have hb2 : isWordOpt (some c2) = true := digit_word c2 hd2
        rw [hb1, hb2] at hbx
        simp at hbx
      subst hi0
      simp only [Nat.sub_zero] at hxeq
      rw [hxr] at hxeq
      have hrun : l.take n = run := congrArg Prod.fst hxeq
      have hrest : l.drop n = rest := congrArg Prod.snd hxeq
      have hrunW : run = l.takeWhile Char.isDigit := by
        rw [← hrun, hn_def, ← takeWhile_eq_take]
      have hrestW : rest = l.dropWhile Char.isDigit := by
        rw [← hrest]
        conv_lhs => rw [← List.takeWhile_append_dropWhile (p := Char.isDigit) (l := l)]
        exact List.drop_left' hn_def.symm
      refine ⟨hrunW, hrestW, by rw [hrunW]; exact hn_def ▸ (by omega), hbd, ?_⟩
      have hlastrun : ∃ c, run.getLast? = some c ∧ c.isDigit = true := by
        obtain ⟨c, hc, hcd⟩ := get?_digit_of_lt l (n - 1) (by omega)
        refine ⟨c, ?_, hcd⟩
        have hlen : run.length = n := by
          rw [← hrun, List.length_take]
          omega
        rw [List.getLast?_eq_get?, hlen, ← hrun, List.get?_take (show n - 1 < n by omega)]
        exact hc
      obtain ⟨c1, hc1, hd1⟩ := hlastrun
      rw [hxr] at hbx
      simp only at hbx
      rw [hc1] at hbx
      unfold boundaryOk at hbx
      have hb1 : isWordOpt (some c1) = true := digit_word c1 hd1
      rw [hb1] at hbx
      cases hw : isWordOpt rest.head?
      · rfl
      · rw [hw] at hbx
        simp at hbx
  · exact absurd h (by simp)

theorem firstSome_cons {α β : Type} (f : α → Option β) (a : α) (as : List α) :
    firstSome f (a :: as) =
      match f a with
      | some b => some b
      | none => firstSome f as := rfl

theorem drop_takeWhile_len (l : List Char) :
    l.drop (l.takeWhile Char.isDigit).length = l.dropWhile Char.isDigit := by
  generalize hn : (l.takeWhile Char.isDigit).length = n
  conv_lhs => rw [← List.takeWhile_append_dropWhile (p := Char.isDigit) (l := l)]
  exact List.drop_left' hn

theorem take_getLast_digit (l : List Char) (k : Nat) (hk1 : 1 ≤ k)
    (hkn : k ≤ (l.takeWhile Char.isDigit).length) :
    ∃ c, (l.take k).getLast? = some c ∧ c.isDigit = true := by
  obtain ⟨c, hc, hcd⟩ := get?_digit_of_lt l (k - 1) (by omega)
  have hnl : (l.takeWhile Char.isDigit).length ≤ l.length :=
    (List.takeWhile_prefix (l := l) Char.isDigit).length_le
  refine ⟨c, ?_, hcd⟩
  have hlen : (l.take k).length = k := by
    rw [List.length_take]
    omega
  rw [List.getLast?_eq_get?, hlen, List.get?_take (show k - 1 < k by omega)]
  exact hc

/-- Conversely, when `\b` holds, the maximal digit run has length at least 3
and the character after it is not a word character, the attempt succeeds. -/
theorem matchDigitRun_some_of (prev : Option Char) (l : List Char)
    (hbd : boundaryOk prev l.head? = true)
    (hn3 : 3 ≤ (l.takeWhile Char.isDigit).length)
    (hafter : isWordOpt ((l.dropWhile Char.isDigit).head?) = false) :
    matchDigitRun prev l = some (l.takeWhile Char.isDigit, l.dropWhile Char.isDigit) := by
  unfold matchDigitRun
  rw [if_pos hbd]
  unfold greedySplits
  rw [if_neg (by omega)]
  have hr : (l.takeWhile Char.isDigit).length + 1 - 3 =
      ((l.takeWhile Char.isDigit).length - 3) + 1 := by omega
  rw [hr, List.range_succ_eq_map, List.map_cons, firstSome_cons]
  obtain ⟨c1, hc1, hd1⟩ := take_getLast_digit l (l.takeWhile Char.isDigit).length
    (by omega) (le_refl _)
  simp only [Nat.sub_zero]
  have hbd2 : boundaryOk (l.take (l.takeWhile Char.isDigit).length).getLast?
      (l.drop (l.takeWhile Char.isDigit).length).head? = true := by
    rw [hc1, drop_takeWhile_len]
    unfold boundaryOk
    have hb1 : isWordOpt (some c1) = true := digit_word c1 hd1
    rw [hb1, hafter]
    rfl
  rw [if_pos hbd2]
  dsimp only
  rw [← takeWhile_eq_take, drop_takeWhile_len]

theorem mda_nil (prev : Option Char) : maskDigitsAux prev [] = [] := by
  rw [maskDigitsAux.eq_def]
  split
  · rename_i run rest heq
    rw [matchDigitRun_nil] at heq
    exact absurd heq (by simp)
  · rfl

theorem mda_match (prev : Option Char) (l run rest : List Char)
    (h : matchDigitRun prev l = some (run, rest)) :
    maskDigitsAux prev l = '*' :: '*' :: '*' :: maskDigitsAux run.getLast? rest := by
  rw [maskDigitsAux.eq_def]
  split
  · rename_i run' rest' heq
    rw [h] at heq
    simp only [Option.some.injEq, Prod.mk.injEq] at heq
    obtain ⟨rfl, rfl⟩ := heq
    rfl
  · rename_i heq
    rw [h] at heq
    exact absurd heq (by simp)

theorem mda_cons_none (prev : Option Char) (c : Char) (r : List Char)
    (h : matchDigitRun prev (c :: r) = none) :
    maskDigitsAux prev (c :: r) = c :: maskDigitsAux (some c) r := by
  rw [maskDigitsAux.eq_def]
  split
  · rename_i run' rest' heq
    rw [h] at heq
    exact absurd heq (by simp)
  · rfl

theorem matchDigitRun_none_of_wordPrev (prev : Option Char) (l : List Char)
    (h : isWordOpt prev = true) (hw : isWordOpt l.head? = true) :
    matchDigitRun prev l = none := by
  unfold matchDigitRun
  rw [if_neg]
  unfold boundaryOk
  rw [h, hw]
  simp

theorem matchDigitRun_none_of_nonDigitHead (prev : Option Char) (c : Char) (r : List Char)
    (h : c.isDigit = false) : matchDigitRun prev (c :: r) = none := by
  unfold matchDigitRun
  split
  · unfold greedySplits
    simp [List.takeWhile_cons, h, firstSome]
  · rfl

/-- Scanning a digit run whose previous character is a word character emits
it verbatim: no `\b` can hold inside or at the start of the run. -/
theorem emitRun : ∀ (ds : List Char) (p : Option Char) (rest : List Char),
    (∀ c ∈ ds, c.isDigit = true) → isWordOpt p = true →
    maskDigitsAux p (ds ++ rest) = ds ++ maskDigitsAux (ds.getLast?.or p) rest := by
  intro ds
  induction ds with
  | nil =>
    intro p rest _ _
    simp [Option.or]
  | cons d ds' ih =>
    intro p rest hd hp
    have hdd : d.isDigit = true := hd d (by simp)
    have hnone : matchDigitRun p (d :: (ds' ++ rest)) = none := by
      refine matchDigitRun_none_of_wordPrev p _ hp ?_
      show isWordOpt (some d) = true
      exact digit_word d hdd
    rw [List.cons_append, mda_cons_none _ _ _ hnone,
      ih (some d) rest (fun c hc => hd c (by simp [hc])) (digit_word d hdd)]
    have hor : (ds'.getLast?.or (some d)) = ((d :: ds').getLast?.or p) := by
      cases ds' with
      | nil => simp
      | cons x xs =>
        rw [List.getLast?_cons_cons]
        cases hys : (x :: xs).getLast? with
        | none => exact absurd hys (by simp)
        | some y => rfl
    rw [hor]
    rfl

theorem dropWhile_head_not_digit (l : List Char) (y : Char) (r2 : List Char)
    (h : l.dropWhile Char.isDigit = y :: r2) : y.isDigit = false := by
  have hh := List.head?_dropWhile_not Char.isDigit l
  rw [h] at hh
  exact hh

theorem not_word_not_digit (c : Char) (h : isWordChar c = false) : c.isDigit = false := by
  cases hd : c.isDigit with
  | false => rfl
  | true =>
    rw [digit_word c hd] at h
    exact Bool.noConfusion h

/-- A word-bounded run of at least three consecutive digits occurring
somewhere in `l`, where `w` tells whether the character just before `l` is a
word character (the left context `\b` sees). -/
def ViolFrom (w : Bool) (l : List Char) : Prop :=
  ∃ pre run post, l = pre ++ run ++ post ∧ 3 ≤ run.length ∧
    (∀ c ∈ run, c.isDigit = true) ∧
    (pre = [] → w = false) ∧
    (∀ x, pre.getLast? = some x → isWordChar x = false) ∧
    (∀ y, post.head? = some y → isWordChar y = false)

/-- A match of `\b\d{3,}\b` somewhere in a complete string. -/
def BoundedDigitRun (l : List Char) : Prop := ViolFrom false l

theorem violFrom_nil (w : Bool) : ¬ ViolFrom w [] := by
  rintro ⟨pre, r, post, heq, hlen3, -, -, -, -⟩
  rw [List.append_assoc] at heq
  have h2 : pre ++ (r ++ post) = [] := heq.symm
  simp only [List.append_eq_nil] at h2
  obtain ⟨-, hr, -⟩ := h2
  subst hr
  exact absurd hlen3 (by decide)

/-- `_DIGIT_ID_RE.sub` leaves no word-bounded run of three or more digits in
its output, whatever the left context of the scan is. -/
theorem maskDigitsAux_no_run :
    ∀ (n : Nat) (l : List Char) (prev : Option Char), l.length ≤ n →
    ¬ ViolFrom (isWordOpt prev) (maskDigitsAux prev l) := by
  intro n
  induction n with
  | zero =>
    intro l prev hln hviol
    have hnil : l = [] := List.length_eq_zero.mp (by omega)
    subst hnil
    rw [mda_nil] at hviol
    exact violFrom_nil _ hviol
  | succ n ih =>
    intro l prev hln hviol
    cases hm : matchDigitRun prev l with
    | some g =>
      obtain ⟨run, rest⟩ := g
      rw [mda_match prev l run rest hm] at hviol
      obtain ⟨hrun, hrest, h3r, -, haft⟩ := matchDigitRun_some prev l run rest hm
      obtain ⟨pre, r, post, heq, hlen3, hdig, -, hps, hpost⟩ := hviol
      rw [List.append_assoc] at heq
      rcases r with - | ⟨rh, rt⟩
      · exact absurd hlen3 (by decide)
      have hrh : rh.isDigit = true := hdig rh (by simp)
      rcases pre with - | ⟨p0, pre1⟩
      · rw [List.nil_append, List.cons_append] at heq
        injection heq with h1 hx1
        rw [← h1] at hrh
        exact absurd hrh (by decide)
      rw [List.cons_append] at heq
      injection heq with hdr heq
      rcases pre1 with - | ⟨p1, pre2⟩
      · rw [List.nil_append, List.cons_append] at heq
        injection heq with h1 hx1
        rw [← h1] at hrh
        exact absurd hrh (by decide)
      rw [List.cons_append] at heq
      injection heq with hdr heq
      rcases pre2 with - | ⟨p2, pre3⟩
      · rw [List.nil_append, List.cons_append] at heq
        injection heq with h1 hx1
        rw [← h1] at hrh
        exact absurd hrh (by decide)
      rw [List.cons_append] at heq
      injection heq with hdr heq
      rcases pre3 with - | ⟨q, pre4⟩
      · rw [List.nil_append, List.cons_append] at heq
        rcases hre : rest with - | ⟨y, r2⟩
        · rw [hre, mda_nil] at heq
          exact absurd heq (by simp)
        · have hyw : isWordChar y = false := by
            rw [hre] at haft
            exact haft
          have hyd : y.isDigit = false := not_word_not_digit y hyw
          rw [hre, mda_cons_none _ _ _ (matchDigitRun_none_of_nonDigitHead _ y r2 hyd)] at heq
          injection heq with h1 hx1
          rw [h1] at hyd
          rw [hrh] at hyd
          exact Bool.noConfusion hyd
      · have hl_split : l = run ++ rest := by
          rw [hrun, hrest, List.takeWhile_append_dropWhile]
        have hrl : rest.length ≤ n := by
          have hll := congrArg List.length hl_split
          rw [List.length_append] at hll
          omega
        refine ih rest run.getLast? hrl ⟨q :: pre4, rh :: rt, post, ?_, hlen3, hdig, ?_, ?_, hpost⟩
        · rw [List.append_assoc]
          exact heq
        · intro hq
          exact absurd hq (by simp)
        · intro x hx
          refine hps x ?_
          rw [List.getLast?_cons_cons, List.getLast?_cons_cons, List.getLast?_cons_cons]
          exact hx
    | none =>
      rcases l with - | ⟨c, tail⟩
      · rw [mda_nil] at hviol
        exact violFrom_nil _ hviol
      rw [mda_cons_none prev c tail hm] at hviol
      obtain ⟨pre, r, post, heq, hlen3, hdig, hpn, hps, hpost⟩ := hviol
      rw [List.append_assoc] at heq
      rcases pre with - | ⟨p0, pre1⟩
      · rw [List.nil_append] at heq
        have hw0 : isWordOpt prev = false := hpn rfl
        rcases r with - | ⟨rh, rt⟩
        · exact absurd hlen3 (by decide)
        rw [List.cons_append] at heq
        injection heq with hc heq
        subst hc
        have hcd : c.isDigit = true := hdig c (by simp)
        obtain ⟨ds2, hds2⟩ : ∃ x, x = tail.takeWhile Char.isDigit := ⟨_, rfl⟩
        obtain ⟨rest', hrest'⟩ : ∃ x, x = tail.dropWhile Char.isDigit := ⟨_, rfl⟩
        have hds2dig : ∀ x ∈ ds2, x.isDigit = true := by
          intro x hx
          rw [hds2] at hx
          exact List.mem_takeWhile_imp hx
        have htail : tail = ds2 ++ rest' := by
          rw [hds2, hrest']
          exact (List.takeWhile_append_dropWhile (p := Char.isDigit) (l := tail)).symm
        have htw : (c :: tail).takeWhile Char.isDigit = c :: ds2 := by
          rw [hds2]
          exact List.takeWhile_cons_of_pos hcd
        have hdw : (c :: tail).dropWhile Char.isDigit = rest' := by
          rw [hrest']
          exact List.dropWhile_cons_of_pos hcd
        have hemit : maskDigitsAux (some c) tail =
            ds2 ++ maskDigitsAux (ds2.getLast?.or (some c)) rest' := by
          conv_lhs => rw [htail]
          exact emitRun ds2 (some c) rest' hds2dig (digit_word c hcd)
        have hway : (c :: ds2).length < 3 ∨ isWordOpt rest'.head? = true := by
          by_contra hcon
          push_neg at hcon
          obtain ⟨h3, hwb⟩ := hcon
          simp only [ne_eq, Bool.not_eq_true] at hwb
          have hbdy : boundaryOk prev (c :: tail).head? = true := by
            unfold boundaryOk
            rw [hw0]
            have hcw : isWordOpt (c :: tail).head? = true := digit_word c hcd
            rw [hcw]
            rfl
          have htw3 : 3 ≤ ((c :: tail).takeWhile Char.isDigit).length := by
            rw [htw]
            simp only [List.length_cons] at h3 ⊢
            omega
          have hafx : isWordOpt ((c :: tail).dropWhile Char.isDigit).head? = false := by
            rw [hdw]
            exact hwb
          have hsome := matchDigitRun_some_of prev (c :: tail) hbdy htw3 hafx
          rw [hm] at hsome
          exact absurd hsome (by simp)
        obtain ⟨M, hM⟩ : ∃ x, x = maskDigitsAux (ds2.getLast?.or (some c)) rest' := ⟨_, rfl⟩
        rw [hemit, ← hM] at heq
        have key : rt.length = ds2.length → post = M → False := by
          intro hlen2 hpm
          rcases hway with h3 | hwa
          · simp only [List.length_cons] at h3 hlen3
            omega
          · rcases rest' with - | ⟨y, r2⟩
            · exact absurd hwa (by decide)
            · have hyd : y.isDigit = false := dropWhile_head_not_digit tail y r2 hrest'.symm
              rw [mda_cons_none _ _ _ (matchDigitRun_none_of_nonDigitHead _ y r2 hyd)] at hM
              have hhd : post.head? = some y := by
                rw [hpm, hM]
                rfl
              have hyw : isWordChar y = false := hpost y hhd
              have hyw2 : isWordChar y = true := hwa
              rw [hyw2] at hyw
              exact Bool.noConfusion hyw
        rcases List.append_eq_append_iff.mp heq with ⟨a1, hA1, hA2⟩ | ⟨c1, hB1, hB2⟩
        · rcases a1 with - | ⟨z, a2⟩
          · refine key ?_ ?_
            · rw [hA1]
              simp
            · simp only [List.append_nil] at hA1 hA2
              exact hA2.symm
          · have hzdig : z.isDigit = true := hdig z (by rw [hA1]; simp)
            rcases rest' with - | ⟨y, r2⟩
            · rw [mda_nil] at hM
              rw [hM] at hA2
              exact absurd hA2 (by simp)
            · have hyd : y.isDigit = false := dropWhile_head_not_digit tail y r2 hrest'.symm
              rw [mda_cons_none _ _ _ (matchDigitRun_none_of_nonDigitHead _ y r2 hyd)] at hM
              rw [hM, List.cons_append] at hA2
              injection hA2 with hzy hx2
              rw [hzy] at hyd
              rw [hzdig] at hyd
              exact Bool.noConfusion hyd
        · rcases c1 with - | ⟨x, a2⟩
          · refine key ?_ ?_
            · rw [hB1]
              simp
            · simp only [List.nil_append] at hB2
              exact hB2
          · have hxd : x.isDigit = true := by
              have hx : x ∈ ds2 := by
                rw [hB1]
                simp
              exact hds2dig x hx
            have hxw : isWordChar x = false := by
              refine hpost x ?_
              rw [hB2]
              rfl
            rw [digit_word x hxd] at hxw
            exact Bool.noConfusion hxw
      · rw [List.cons_append] at heq
        injection heq with hc heq
        have htn : tail.length ≤ n := by
          simp only [List.length_cons] at hln
          omega
        refine ih tail (some c) htn ⟨pre1, r, post, ?_, hlen3, hdig, ?_, ?_, hpost⟩
        · rw [List.append_assoc]
          exact heq
        · intro hnil
          subst hnil
          have hp0 : isWordChar p0 = false := hps p0 (by simp)
          rw [hc]
          exact hp0
        · intro x hx
          refine hps x ?_
          cases pre1 with
          | nil => exact absurd hx (by simp)
          | cons q qs =>
            rw [List.getLast?_cons_cons]
            exact hx

theorem maskDebug_debug (s : AppointmentState) :
    (maskDebug s).meta.debug = s.meta.debug.map mask_pii := rfl

/-- C10 (amended): for every input string `s`, `mask_pii(s)` contains no
word-bounded sequence of three or more consecutive digits; consequently,
after any middleware-wrapped step invocation in which the wrapped step
actually ran (the call-limit short-circuit did not fire), if `meta["debug"]`
is a string it contains no word-bounded run of three or more digits. -/
theorem C10_mask_pii_no_digit_run :
    (∀ s : String, ¬ BoundedDigitRun (mask_pii s).data) ∧
    (∀ (f : AppointmentState → AppointmentState) (s : AppointmentState) (d : String),
      s.meta.node_calls < 50 → (wrapNode f s).meta.debug = some d →
      ¬ BoundedDigitRun d.data) := by
  have hmp : ∀ s : String, ¬ BoundedDigitRun (mask_pii s).data := by
    intro s
    unfold mask_pii
    by_cases hs : s = ""
    · rw [if_pos hs, hs]
      exact violFrom_nil false
    · rw [if_neg hs]
      exact maskDigitsAux_no_run (maskAppt s.data).length (maskAppt s.data) none (le_refl _)
  refine ⟨hmp, ?_⟩
  intro f s d hlt hdbg
  rw [wrapNode_under f s hlt, maskDebug_debug] at hdbg
  rw [Option.map_eq_some'] at hdbg
  obtain ⟨d0, -, hd0⟩ := hdbg
  subst hd0
  exact hmp d0

/-- A state already at the call ceiling whose debug field holds an unmasked
digit run. -/
def overDebugState : AppointmentState :=
  { freshState "w10" "x" with
    meta := { (freshState "w10" "x").meta with node_calls := 57, debug := some "1234" } }

/-- The spec's unconditional consequence fails: when the call-limit
short-circuit fires, the redaction middleware is skipped and a stale unmasked
debug string survives the wrapped invocation. -/
theorem C10_counterexample :
    (wrapNode node_finalize overDebugState).meta.debug = some "1234" ∧
    BoundedDigitRun (String.data "1234") := by
  refine ⟨rfl, [], ['1', '2', '3', '4'], [], by decide, by decide, by decide,
    fun _ => rfl, fun x hx => Option.noConfusion hx, fun y hy => Option.noConfusion hy⟩

/-- A below-ceiling state whose debug field holds raw text with a digit id. -/
def underDebugState : AppointmentState :=
  { freshState "w11" "x" with
    meta := { (freshState "w11" "x").meta with debug := some "ref 1234" } }

theorem mask_pii_ref : mask_pii "ref 1234" = "ref ***" := by
  unfold mask_pii
  rw [if_neg (by decide)]
  rw [show maskAppt (String.data "ref 1234") =
        ['r', 'e', 'f', ' ', '1', '2', '3', '4'] from by decide]
  rw [mda_cons_none _ _ _ (by decide), mda_cons_none _ _ _ (by decide),
    mda_cons_none _ _ _ (by decide), mda_cons_none _ _ _ (by decide),
    mda_match _ _ ['1', '2', '3', '4'] [] (by decide), mda_nil]

theorem C10_witness :
    underDebugState.meta.node_calls < 50 ∧
    (wrapNode (fun t => t) underDebugState).meta.debug = some "ref ***" ∧
    ¬ BoundedDigitRun (mask_pii "ref 1234").data ∧
    ¬ BoundedDigitRun (String.data "ref ***") := by
  have hdbg : (wrapNode (fun t => t) underDebugState).meta.debug = some "ref ***" := by
    rw [wrapNode_under _ _ (by decide), maskDebug_debug]
    show some (mask_pii "ref 1234") = some "ref ***"
    rw [mask_pii_ref]
  refine ⟨by decide, hdbg, C10_mask_pii_no_digit_run.1 "ref 1234",
    C10_mask_pii_no_digit_run.2 (fun t => t) underDebugState "ref ***" (by decide) hdbg⟩
